import Mathlib

/-!
Verification development for the LetterboxBlend recommendation engine
(`backend/recommendation_engine.py`, with `backend/utils.py` and
`backend/config.py`).

The Python code is shallowly embedded: dictionaries whose values the code
inspects dynamically become `PyVal`; Python `float(...)` / `int(...)` and
the `x < n` comparison, which can raise `ValueError` / `TypeError`, become
`Except Unit` computations; functions whose body can let such an exception
escape are themselves `Except Unit` valued, while functions that catch the
exception locally (`try`/`except` around the conversion) stay total.
All numeric arithmetic is over `ℚ` (CPython floats are not modelled
bitwise; every constant in the engine is an exact decimal).

Python `set` iteration order is not a function of the set's contents
alone (string hashing is randomized per process).  The single place where
the engine *iterates* over a set in a value-relevant way — the candidate
actor set in `get_actor_overlap_score` — is therefore parameterized by an
enumeration function `enum`; `enumId` instantiates it with the
first-insertion order.  Other sets (`watched`, the common-genre key set)
are only used for membership tests or key iteration that feeds dictionary
construction; the embedding fixes first-insertion order for those, which
matches the membership semantics exactly.
-/

/-- A Python value as stored in the movie dictionaries: a string, a number
(int or float, modelled exactly as a rational), or `None`. -/
inductive PyVal where
  | str (s : String)
  | num (q : ℚ)
  | vnone
deriving DecidableEq, Repr

/-- A cast field can hold either a comma-separated string or a list of
names (`isinstance(actors_field, list)` check in the source). -/
inductive ActorsVal where
  | str (s : String)
  | list (l : List String)
deriving DecidableEq, Repr

/-- Python truthiness for the scalar values the engine tests. -/
def pyTruthy : PyVal → Bool
  | .str s => s ≠ ""
  | .num q => q ≠ 0
  | .vnone => false

/-- Python truthiness for a cast field (empty string and empty list are falsy). -/
def actorsTruthy : ActorsVal → Bool
  | .str s => s ≠ ""
  | .list l => l ≠ []

/-- ASCII whitespace recognised by Python's `str.strip()` (the inputs in
scope are ASCII). -/
def isSpaceChar (c : Char) : Bool :=
  c = ' ' ∨ c = '\t' ∨ c = '\n' ∨ c = '\r'

/-- Model of Python `str.strip()`. -/
def strTrim (s : String) : String :=
  ⟨((s.data.dropWhile isSpaceChar).reverse.dropWhile isSpaceChar).reverse⟩

/-- Model of Python `str.lower()` (ASCII). -/
def strLower (s : String) : String :=
  ⟨s.data.map Char.toLower⟩

/-- Split a character list at occurrences of `sep`. -/
def splitCharsOn (sep : Char) : List Char → List (List Char)
  | [] => [[]]
  | c :: cs =>
    let rest := splitCharsOn sep cs
    if c = sep then [] :: rest
    else match rest with
      | [] => [[c]]
      | r :: rs => (c :: r) :: rs

/-- Model of Python `str.split(sep)` for a one-character separator. -/
def strSplitOn (sep : Char) (s : String) : List String :=
  (splitCharsOn sep s.data).map (fun cs => (⟨cs⟩ : String))

/-- Model of Python `sep.join(l)`. -/
def strJoin (sep : String) : List String → String
  | [] => ""
  | [s] => s
  | s :: rest => s ++ sep ++ strJoin sep rest

/-- Numeric value of a digit list (most significant first). -/
def digitsVal (cs : List Char) : Nat :=
  cs.foldl (fun a c => a * 10 + (c.toNat - 48)) 0

/-- Split a character list at the first `'.'`, if any. -/
def splitDot : List Char → List Char × Option (List Char)
  | [] => ([], none)
  | c :: cs =>
    if c = '.' then ([], some cs)
    else
      let p := splitDot cs
      (c :: p.1, p.2)

/-- Parse an unsigned decimal literal (`"12"`, `"12.5"`, `".5"`, `"12."`),
as accepted by Python `float()`; anything else (including a second dot,
exponents, or non-digits) fails. -/
def parseUnsignedDecimal (cs : List Char) : Option ℚ :=
  let p := splitDot cs
  match p.2 with
  | none =>
    if cs ≠ [] ∧ cs.all Char.isDigit then some (digitsVal cs) else none
  | some fp =>
    if (p.1 ≠ [] ∨ fp ≠ []) ∧ p.1.all Char.isDigit ∧ fp.all Char.isDigit then
      some ((digitsVal p.1 : ℚ) + (digitsVal fp : ℚ) / (10 : ℚ) ^ fp.length)
    else none

/-- Model of Python `float(s)` on a string: strip whitespace, optional
sign, plain decimal literal.  (Exponents, `inf`, `nan` are outside the
input space of this engine and are not modelled.) -/
def pyParseFloatStr (s : String) : Option ℚ :=
  match (strTrim s).data with
  | [] => none
  | c :: rest =>
    if c = '+' then parseUnsignedDecimal rest
    else if c = '-' then (parseUnsignedDecimal rest).map Neg.neg
    else parseUnsignedDecimal (c :: rest)

/-- Model of Python `int(s)` on a string: strip whitespace, optional sign,
digits only (`int("5.0")` raises). -/
def pyParseIntStr (s : String) : Option Int :=
  match (strTrim s).data with
  | [] => none
  | c :: rest =>
    if c = '+' then
      if rest ≠ [] ∧ rest.all Char.isDigit then some (digitsVal rest) else none
    else if c = '-' then
      if rest ≠ [] ∧ rest.all Char.isDigit then some (-(digitsVal rest : Int)) else none
    else
      if (c :: rest).all Char.isDigit then some (digitsVal (c :: rest)) else none

/-- Truncation toward zero, as Python `int(float)`. -/
def ratTrunc (q : ℚ) : Int := Int.tdiv q.num q.den

/-- Python `min` on two rationals (kernel-reducible). -/
def ratMin (a b : ℚ) : ℚ := if a ≤ b then a else b

/-- Python `max` on two rationals (kernel-reducible). -/
def ratMax (a b : ℚ) : ℚ := if a ≤ b then b else a

/-- Python `min` on two integers (kernel-reducible). -/
def intMin (a b : Int) : Int := if a ≤ b then a else b

/-- Python `max` on two integers (kernel-reducible). -/
def intMax (a b : Int) : Int := if a ≤ b then b else a

/-- Model of Python `float(v)`: numbers pass through, strings are parsed
(`ValueError` on failure), `None` raises `TypeError`. -/
def pyFloat : PyVal → Except Unit ℚ
  | .num q => .ok q
  | .str s =>
    match pyParseFloatStr s with
    | some q => .ok q
    | none => .error ()
  | .vnone => .error ()

/-- Model of Python `int(v)`. -/
def pyInt : PyVal → Except Unit Int
  | .num q => .ok (ratTrunc q)
  | .str s =>
    match pyParseIntStr s with
    | some n => .ok n
    | none => .error ()
  | .vnone => .error ()

/-- Model of the Python comparison `v < n` for an integer literal `n`:
well-defined on numbers, `TypeError` on strings and `None`. -/
def pyLtNum (v : PyVal) (n : ℚ) : Except Unit Bool :=
  match v with
  | .num q => .ok (decide (q < n))
  | .str _ => .error ()
  | .vnone => .error ()

/-- First-occurrence lookup in an association list (Python dict access). -/
def alookup {α : Type} (l : List (String × α)) (k : String) : Option α :=
  match l with
  | [] => none
  | p :: rest => if p.1 = k then some p.2 else alookup rest k

/-- Dict assignment `d[k] = v`: update the first occurrence in place, else
append (preserves Python dict insertion-order semantics). -/
def alistSet {α : Type} (l : List (String × α)) (k : String) (v : α) : List (String × α) :=
  match l with
  | [] => [(k, v)]
  | p :: rest => if p.1 = k then (k, v) :: rest else p :: alistSet rest k v

/-- Modify the value at an existing key in place (no-op when absent; the
engine only uses this on keys it has pre-inserted). -/
def alistModify {α : Type} (l : List (String × α)) (k : String) (f : α → α) : List (String × α) :=
  match l with
  | [] => []
  | p :: rest => if p.1 = k then (p.1, f p.2) :: rest else p :: alistModify rest k f

/-- Upsert with a default: `d[k] = f(d.get(k, d0))`, modelling
`defaultdict` accumulation while preserving first-insertion order. -/
def alistUpsert {α : Type} (l : List (String × α)) (k : String) (d0 : α) (f : α → α) :
    List (String × α) :=
  match l with
  | [] => [(k, f d0)]
  | p :: rest => if p.1 = k then (k, f p.2) :: rest else p :: alistUpsert rest k d0 f

/-- Stable insertion for a descending sort: `x` goes in front of the first
element it is ≥-related to.  Folding from the right yields exactly the
stable descending order of Python's `sorted(..., reverse=True)`. -/
def insertByGE {α : Type} (ge : α → α → Bool) (x : α) : List α → List α
  | [] => [x]
  | y :: ys => if ge x y then x :: y :: ys else y :: insertByGE ge x ys

/-- Stable descending sort (model of `sorted(l, key=..., reverse=True)` and
`list.sort(key=..., reverse=True)`). -/
def sortByGE {α : Type} (ge : α → α → Bool) (l : List α) : List α :=
  l.foldr (insertByGE ge) []

namespace Config

/-- `Config.MIN_IMDB_RATING` (`config.py`). -/
def MIN_IMDB_RATING : ℚ := 5

/-- `Config.MAX_RECOMMENDATIONS` (`config.py`). -/
def MAX_RECOMMENDATIONS : Nat := 50

/-- `Config.GENRE_WEIGHT` (`config.py`). -/
def GENRE_WEIGHT : ℚ := 0.2

/-- `Config.PLOT_WEIGHT` (`config.py`). -/
def PLOT_WEIGHT : ℚ := 0.4

/-- `Config.ACTOR_WEIGHT` (`config.py`). -/
def ACTOR_WEIGHT : ℚ := 0.4

/-- `Config.IMDB_BONUS_WEIGHT` (`config.py`). -/
def IMDB_BONUS_WEIGHT : ℚ := 0.4

/-- `Config.MAX_PLOT_SCORE` (`config.py`). -/
def MAX_PLOT_SCORE : ℚ := 5

end Config

/-- A user's rated-movie record, with exactly the dictionary fields the
engine reads.  `Option` is key presence; rating fields are raw `PyVal`s
because the code applies `float(...)` to them dynamically.  The four cast
fields mirror the lookup chain `['Actors', 'actors', 'cast', 'Cast']`. -/
structure UserMovie where
  title : Option String := none
  genre : Option String := none
  letterboxRating : Option PyVal := none
  imdbRating : Option PyVal := none
  rating : Option PyVal := none
  yourRating : Option PyVal := none
  plot : Option String := none
  fieldActors : Option ActorsVal := none
  fieldActorsLC : Option ActorsVal := none
  fieldCastLC : Option ActorsVal := none
  fieldCast : Option ActorsVal := none
deriving DecidableEq, Repr, Inhabited

/-- A candidate-database movie record with the fields `blend_movies`
reads (`title`, `genres`, `imdb_rating`, `imdb_votes`, `cast`, `Actors`,
`extract`, `year`, `imdb_id`). -/
structure DbMovie where
  title : Option String := none
  genres : Option (List String) := none
  imdb_rating : Option PyVal := none
  imdb_votes : Option PyVal := none
  castList : Option ActorsVal := none
  actorsStr : Option ActorsVal := none
  extract : Option String := none
  year : Option PyVal := none
  imdb_id : Option String := none
deriving DecidableEq, Repr, Inhabited

/-- The five sub-scores of `calculate_movie_score`. -/
structure Scores where
  genre_score : ℚ
  plot_score : ℚ
  actor_score : ℚ
  imdb_bonus : ℚ
  recency_bonus : ℚ
deriving DecidableEq, Repr

/-- A scored candidate: the fresh copy of the database record plus the
score fields the engine attaches (`movie_result` in `blend_movies`). -/
structure ScoredMovie where
  movie : DbMovie
  genre_score : ℚ
  plot_score : ℚ
  actor_score : ℚ
  imdb_bonus : ℚ
  recency_bonus : ℚ
  combined_score : ℚ
  unique_key : String
deriving DecidableEq, Repr, Inhabited

/-- Python word characters (`\w` over ASCII). -/
def isWordChar (c : Char) : Bool := c.isAlpha ∨ c.isDigit ∨ c = '_'

/-- Maximal runs of word characters in a character list (accumulator holds
the current run reversed). -/
def wordRunsAux (cur : List Char) : List Char → List (List Char)
  | [] => if cur = [] then [] else [cur.reverse]
  | c :: cs =>
    if isWordChar c then wordRunsAux (c :: cur) cs
    else if cur = [] then wordRunsAux [] cs
    else cur.reverse :: wordRunsAux [] cs

/-- Maximal word-character runs of a character list. -/
def wordRuns (cs : List Char) : List (List Char) := wordRunsAux [] cs

/-- First-occurrence deduplication (a CPython `set` built by insertion,
enumerated in first-insertion order). -/
def dedupFirst : List String → List String
  | [] => []
  | a :: l => a :: (dedupFirst l).filter (fun b => b ≠ a)

/-- The stop-word list of `utils.calculate_plot_similarity`. -/
def commonWords : List String :=
  ["the", "a", "an", "and", "or", "but", "in", "on", "at", "to", "for", "of", "with", "by",
   "is", "are", "was", "were", "be", "been", "have", "has", "had", "will", "would", "could",
   "should"]

/-- `set(re.findall(r'\b[a-zA-Z]{3,}\b', text.lower())) - common_words`:
a regex match is exactly a maximal `\w`-run that is all-letters of length
at least 3. -/
def extractWords (text : String) : List String :=
  dedupFirst ((((wordRuns (strLower text).data).filter
      (fun r => r.all Char.isAlpha ∧ 3 ≤ r.length)).map
        (fun r => (⟨r⟩ : String))).filter (fun w => w ∉ commonWords))

/-- `utils.calculate_plot_similarity`: word-level Jaccard similarity. -/
def calculate_plot_similarity (movie_extract user_plots : String) : ℚ :=
  if movie_extract = "" ∨ user_plots = "" then 0
  else
    let movie_words := extractWords movie_extract
    let user_words := extractWords user_plots
    if movie_words = [] ∨ user_words = [] then 0
    else
      let nInter := (movie_words.filter (fun w => w ∈ user_words)).length
      let nUnion := movie_words.length + (user_words.filter (fun w => w ∉ movie_words)).length
      if 0 < nUnion then (nInter : ℚ) / (nUnion : ℚ) else 0

/-- `o` when the field is present and truthy, else `none`. -/
def optTruthy (o : Option PyVal) : Option PyVal :=
  o.bind (fun v => if pyTruthy v then some v else none)

/-- `o` when the field is present, truthy and not the literal `'N/A'`. -/
def optTruthyNA (o : Option PyVal) : Option PyVal :=
  o.bind (fun v => if pyTruthy v ∧ v ≠ .str "N/A" then some v else none)

/-- The rating chain of `calculate_genre_weights`
(`letterboxRating` → `imdbRating` (≠ `'N/A'`) → `Rating` → `Your Rating` →
default `5.0`); a failing `float(...)` raises, which the caller catches. -/
def genreWeightRating (m : UserMovie) : Except Unit ℚ :=
  match optTruthy m.letterboxRating with
  | some v => pyFloat v
  | none =>
    match optTruthyNA m.imdbRating with
    | some v => pyFloat v
    | none =>
      match optTruthy m.rating with
      | some v => pyFloat v
      | none =>
        match optTruthy m.yourRating with
        | some v => pyFloat v
        | none => .ok 5

/-- One movie's contribution to the per-genre `{count, total_rating}`
statistics; a `ValueError`/`TypeError` from the rating conversion is
caught and the movie skipped (`except ... continue`). -/
def genreStatsAdd (stats : List (String × (Nat × ℚ))) (m : UserMovie) :
    List (String × (Nat × ℚ)) :=
  match m.genre with
  | none => stats
  | some g =>
    if g = "" then stats
    else
      match genreWeightRating m with
      | .error _ => stats
      | .ok r =>
        ((strSplitOn ',' g).map strTrim).foldl
          (fun st gen =>
            if gen ≠ "" then alistUpsert st gen (0, 0) (fun p => (p.1 + 1, p.2 + r)) else st)
          stats

/-- `RecommendationEngine.calculate_genre_weights`. -/
def calculate_genre_weights (user_data : List UserMovie) : List (String × ℚ) :=
  let stats := user_data.foldl genreStatsAdd []
  stats.filterMap (fun p =>
    if 0 < p.2.1 then some (p.1, p.2.2 / (p.2.1 : ℚ) * (1 + (p.2.1 : ℚ) / 10)) else none)

/-- `RecommendationEngine.get_common_genres`.  The set intersection is
enumerated in `user1_weights` key order (set iteration order only affects
the output dict's key order, never its key-value content). -/
def get_common_genres (u1 u2 : List (String × ℚ)) : List (String × ℚ) :=
  let commonSet := (u1.map Prod.fst).filter (fun g => (alookup u2 g).isSome)
  let weighted := commonSet.filterMap (fun g =>
    match alookup u1 g, alookup u2 g with
    | some w1, some w2 => if 0 < w1 ∧ 0 < w2 then some (g, (w1 + w2) / 2) else none
    | _, _ => none)
  if weighted = [] then commonSet.map (fun g => (g, (5 : ℚ))) else weighted

/-- `RecommendationEngine.get_watched_movies`; the watched set is only
used for membership tests, so a list of the inserted titles models it. -/
def get_watched_movies (user_data : List UserMovie) : List String :=
  user_data.foldl (fun w m =>
    match m.title with
    | some t => if t ≠ "" then w ++ [strTrim (strLower t)] else w
    | none => w) []

/-- `RecommendationEngine.extract_user_plots`. -/
def extract_user_plots (user_data : List UserMovie) : String :=
  strJoin " " (user_data.filterMap (fun m =>
    match m.plot with
    | some p => if p ≠ "" ∧ p ≠ "N/A" then some p else none
    | none => none))

/-- `RecommendationEngine._extract_movie_rating`: unlike
`calculate_genre_weights`, its callers do NOT catch conversion errors, so
a non-numeric rating string propagates as an exception. -/
def extract_movie_rating (m : UserMovie) : Except Unit ℚ :=
  match optTruthy m.letterboxRating with
  | some v => pyFloat v
  | none =>
    match optTruthyNA m.imdbRating with
    | some v => pyFloat v
    | none =>
      match optTruthy m.rating with
      | some v => pyFloat v
      | none => .ok 0

/-- The first present, truthy, non-`'N/A'` field among
`['Actors', 'actors', 'cast', 'Cast']`. -/
def actorsFieldOf (m : UserMovie) : Option ActorsVal :=
  m.fieldActors.bind (fun v => if actorsTruthy v ∧ v ≠ .str "N/A" then some v else none)
  |>.orElse (fun _ =>
    m.fieldActorsLC.bind (fun v => if actorsTruthy v ∧ v ≠ .str "N/A" then some v else none))
  |>.orElse (fun _ =>
    m.fieldCastLC.bind (fun v => if actorsTruthy v ∧ v ≠ .str "N/A" then some v else none))
  |>.orElse (fun _ =>
    m.fieldCast.bind (fun v => if actorsTruthy v ∧ v ≠ .str "N/A" then some v else none))

/-- Strip the names in a cast field and drop the empty ones
(`[actor.strip() for actor in field if actor.strip()]`). -/
def normalizeActorNames : ActorsVal → List String
  | .list l => (l.map strTrim).filter (fun a => a ≠ "")
  | .str s => ((strSplitOn ',' s).map strTrim).filter (fun a => a ≠ "")

/-- `RecommendationEngine._extract_movie_actors`. -/
def extract_movie_actors (m : UserMovie) : List String :=
  match actorsFieldOf m with
  | none => []
  | some v => normalizeActorNames v

/-- Billing-position weight `1.0 - 0.15*i`. -/
def positionWeight (i : Nat) : ℚ := 1 - (i : ℚ) * (15 / 100)

/-- Per-actor accumulator of `get_top_actors_for_user`. -/
structure ActorStat where
  count : Nat
  total_rating : ℚ
  weight : ℚ
deriving DecidableEq, Repr

/-- One user movie's contribution to the `actor_scores` table of
`get_top_actors_for_user`; `_extract_movie_rating` errors propagate. -/
def userActorAdd (tbl : List (String × ActorStat)) (m : UserMovie) :
    Except Unit (List (String × ActorStat)) := do
  let rating ← extract_movie_rating m
  if rating = 0 then pure tbl
  else
    let actors := extract_movie_actors m
    if actors = [] then pure tbl
    else
      pure ((actors.take 5).enum.foldl (fun t p =>
        if p.2 ≠ "" then
          let pw := positionWeight p.1
          alistUpsert t (strLower p.2) ⟨0, 0, 0⟩
            (fun st => ⟨st.count + 1, st.total_rating + rating * pw, st.weight + pw⟩)
        else t) tbl)

/-- Accumulating loop over the user's movies. -/
def buildUserActorScoresFrom (tbl : List (String × ActorStat)) :
    List UserMovie → Except Unit (List (String × ActorStat))
  | [] => .ok tbl
  | m :: rest => do
    let tbl' ← userActorAdd tbl m
    buildUserActorScoresFrom tbl' rest

/-- The `actor_scores` table of `get_top_actors_for_user`. -/
def build_user_actor_scores (u : List UserMovie) : Except Unit (List (String × ActorStat)) :=
  buildUserActorScoresFrom [] u

/-- `avg_rating * frequency_bonus` for a retained actor. -/
def actorFinalScore (st : ActorStat) : ℚ :=
  let avg := if 0 < st.weight then st.total_rating / st.weight else 0
  let freq := ratMin ((st.count : ℚ) / 5) 2
  avg * freq

/-- `RecommendationEngine.get_top_actors_for_user`: only actors with
appearance count ≥ 2 are exported, sorted by score descending, top
`top_count` kept. -/
def get_top_actors_for_user (u : List UserMovie) (top_count : Nat) :
    Except Unit (List (String × ℚ)) := do
  let scores ← build_user_actor_scores u
  let finals := scores.filterMap (fun p =>
    if 2 ≤ p.2.count then some (p.1, actorFinalScore p.2) else none)
  pure ((sortByGE (fun a b => decide (b.2 ≤ a.2)) finals).take top_count)

/-- Per-actor accumulator of the combined table in
`get_actor_overlap_score`. -/
structure CombStat where
  total_weight : ℚ
  movie_count : Nat
deriving DecidableEq, Repr

/-- One user movie's contribution to `combined_actor_scores`;
`_extract_movie_rating` errors propagate (no `try` in the source). -/
def combinedActorAdd (tbl : List (String × CombStat)) (m : UserMovie) :
    Except Unit (List (String × CombStat)) := do
  let rating ← extract_movie_rating m
  if rating = 0 then pure tbl
  else
    let actors := extract_movie_actors m
    if actors = [] then pure tbl
    else
      pure ((actors.take 5).enum.foldl (fun t p =>
        if p.2 ≠ "" then
          let fw := positionWeight p.1 * (rating / 5)
          alistUpsert t (strLower p.2) ⟨0, 0⟩
            (fun st => ⟨st.total_weight + fw, st.movie_count + 1⟩)
        else t) tbl)

/-- Accumulating loop over `user1_data ++ user2_data` (the source iterates
`for user_data in [user1_data, user2_data]`). -/
def buildCombinedFrom (tbl : List (String × CombStat)) :
    List UserMovie → Except Unit (List (String × CombStat))
  | [] => .ok tbl
  | m :: rest => do
    let tbl' ← combinedActorAdd tbl m
    buildCombinedFrom tbl' rest

/-- The `combined_actor_scores` table of `get_actor_overlap_score`. -/
def build_combined_actor_scores (u1 u2 : List UserMovie) :
    Except Unit (List (String × CombStat)) :=
  buildCombinedFrom [] (u1 ++ u2)

/-- The candidate cast normalized to lowercase stripped names, in list
order (the insertion order of `movie_actor_set`). -/
def movieActorInsertion : ActorsVal → List String
  | .list l => ((l.map strTrim).filter (fun a => a ≠ "")).map strLower
  | .str s => (((strSplitOn ',' s).map strTrim).filter (fun a => a ≠ "")).map strLower

/-- The matching loop of `get_actor_overlap_score`: fold over the actor
set in the given iteration order, tracking `(total_score, matches_found)`;
base multiplier 1.0 / 0.6 / 0.3 by match rank. -/
def overlapMatchFold (tbl : List (String × CombStat)) (iter : List String) : ℚ :=
  (iter.foldl (fun (acc : ℚ × Nat) a =>
    match alookup tbl a with
    | none => acc
    | some st =>
      let matchRank := acc.2 + 1
      let avg := st.total_weight / (st.movie_count : ℚ)
      let freq := ratMin ((st.movie_count : ℚ) / 3) (3 / 2)
      let importance := avg * freq
      let base : ℚ := if matchRank = 1 then 1 else if matchRank ≤ 3 then 3 / 5 else 3 / 10
      (acc.1 + base * importance, matchRank)) ((0 : ℚ), (0 : Nat))).1

/-- `RecommendationEngine.get_actor_overlap_score`, parameterized by the
iteration order `enum` over `movie_actor_set` (a CPython `set` of strings,
whose iteration order is not determined by the set's contents; `enum`
receives the members in first-insertion order and yields the order the
loop visits them in). -/
def get_actor_overlap_score (enum : List String → List String) (movie_actors : ActorsVal)
    (u1 u2 : List UserMovie) : Except Unit ℚ :=
  if ¬ actorsTruthy movie_actors ∨ movie_actors = .str "N/A" then .ok 0
  else
    let setList := dedupFirst (movieActorInsertion movie_actors)
    if setList = [] then .ok 0
    else do
      let tbl ← build_combined_actor_scores u1 u2
      pure (ratMin (overlapMatchFold tbl (enum setList)) 3)

/-- The canonical enumeration: first-insertion order. -/
def enumId : List String → List String := fun l => l

/-- `e` is a legal iteration order of the set whose first-insertion
enumeration is `s`. -/
def validEnum (e s : List String) : Prop := e.Nodup ∧ ∀ a, a ∈ e ↔ a ∈ s

/-- The genre component of `calculate_movie_score` (source steps 1). -/
def genreScoreOf (movie_genres : List String) (common : List (String × ℚ)) : ℚ :=
  let matching := movie_genres.filter (fun g => (alookup common g).isSome)
  let gsum := matching.foldl (fun acc g => acc + (alookup common g).getD 0) 0
  let base := if matching ≠ [] then gsum / (matching.length : ℚ) / 2 else 0
  base + (ratMin ((matching.length : ℚ) * (1 / 2)) 2) / 2

/-- `RecommendationEngine.calculate_movie_score`: five sub-scores; only
the actor component can raise (the rating and year conversions are inside
local `try`/`except` blocks). -/
def calculate_movie_score (enum : List String → List String) (movie : DbMovie)
    (common : List (String × ℚ)) (user1_plots user2_plots : String)
    (u1 u2 : List UserMovie) : Except Unit Scores := do
  let genre_score :=
    match movie.genres with
    | some gs => if gs ≠ [] then genreScoreOf gs common else 0
    | none => 0
  let plot_score :=
    match movie.extract with
    | some e =>
      if e ≠ "" then
        ratMin (calculate_plot_similarity e (user1_plots ++ " " ++ user2_plots) * 100)
          Config.MAX_PLOT_SCORE
      else 0
    | none => 0
  let movieActors :=
    let c := movie.castList.getD (.list [])
    if actorsTruthy c then c else movie.actorsStr.getD (.str "")
  let actor_score ←
    if actorsTruthy movieActors then
      let actorString :=
        match movieActors with
        | .list l => strJoin ", " l
        | .str s => s
      get_actor_overlap_score enum (.str actorString) u1 u2
    else pure 0
  let imdb_bonus :=
    match optTruthyNA movie.imdb_rating with
    | some v =>
      match pyFloat v with
      | .ok r => if Config.MIN_IMDB_RATING < r then (r - Config.MIN_IMDB_RATING) * (1 / 2) else 0
      | .error _ => 0
    | none => 0
  let recency_bonus :=
    match optTruthy movie.year with
    | some v =>
      match pyInt v with
      | .ok y =>
        if 2020 ≤ y then ratMax (3 - ((2025 - y : Int) : ℚ) * (1 / 5)) 2
        else if 2010 ≤ y then 1 + ((y - 2010 : Int) : ℚ) * (1 / 10)
        else if 2000 ≤ y then 1 / 5 + ((y - 2000 : Int) : ℚ) * (2 / 25)
        else 0
      | .error _ => 0
    | none => 0
  pure ⟨genre_score, plot_score, actor_score, imdb_bonus, recency_bonus⟩

/-- Trace record for one emission of the diversity loop: the bucket genre
the movie was taken from, whether the relaxation branch produced it, and
how many buckets still had remaining items just before the pick.  The
trace is specification instrumentation; the source loop emits only the
movie. -/
structure Pick where
  genre : String
  relax : Bool
  remainingGenres : Nat
deriving DecidableEq, Repr

/-- The fixed data of one `apply_genre_diversity` run: the per-genre
buckets, the per-genre target quotas, the bucket scan order of the quota
phase (`sorted_genres`) and the scan order of the relaxation branch
(`available_genres`). -/
structure DivCtx where
  groups : List (String × List ScoredMovie)
  targets : List (String × Nat)
  sortedG : List String
  availG : List String
deriving Repr

/-- `genre_groups[g]` (buckets the loop reads). -/
def bucketOf (ctx : DivCtx) (g : String) : List ScoredMovie :=
  (alookup ctx.groups g).getD []

/-- `genre_indices[g]`. -/
def idxOf (idx : List (String × Nat)) (g : String) : Nat :=
  (alookup idx g).getD 0

/-- `genre_targets[g]`. -/
def targetOf (ctx : DivCtx) (g : String) : Nat :=
  (alookup ctx.targets g).getD 0

/-- The quota-phase scan: first genre in `sorted_genres` with remaining
items, remaining quota, and not extending a 2-run of itself. -/
def findMainGenre (ctx : DivCtx) (idx : List (String × Nat)) (last : Option String)
    (consec : Nat) : Option String :=
  ctx.sortedG.find? (fun g =>
    decide (idxOf idx g < (bucketOf ctx g).length) &&
    decide (idxOf idx g < targetOf ctx g) &&
    (decide (last ≠ some g) || decide (consec < 2)))

/-- The relaxation scan: first genre in `available_genres` with remaining
items (quota and the anti-consecutive rule are ignored). -/
def findRelaxGenre (ctx : DivCtx) (idx : List (String × Nat)) : Option String :=
  ctx.availG.find? (fun g => decide (idxOf idx g < (bucketOf ctx g).length))

/-- Number of buckets with remaining items (trace instrumentation). -/
def remainingGenreCount (ctx : DivCtx) (idx : List (String × Nat)) : Nat :=
  (ctx.availG.filter (fun g => decide (idxOf idx g < (bucketOf ctx g).length))).length

/-- The `while len(balanced_movies) < Config.MAX_RECOMMENDATIONS` loop of
`apply_genre_diversity`, written as a generator: `count` is the length of
the accumulated `balanced_movies` (its only use in the source is the
length guard), and the emitted list is the sequence of appends.  Each
iteration appends exactly one movie or breaks, so
`Config.MAX_RECOMMENDATIONS` steps of fuel are exact. -/
def diversity_loop (ctx : DivCtx) :
    Nat → List (String × Nat) → Option String → Nat → Nat → List (ScoredMovie × Pick)
  | 0, _, _, _, _ => []
  | Nat.succ fuel, idx, last, consec, count =>
    if count < Config.MAX_RECOMMENDATIONS then
      match findMainGenre ctx idx last consec with
      | some g =>
        let i := idxOf idx g
        let m := (bucketOf ctx g).getD i default
        let consecN := if last = some g then consec + 1 else 1
        (m, ⟨g, false, remainingGenreCount ctx idx⟩) ::
          diversity_loop ctx fuel (alistSet idx g (i + 1)) (some g) consecN (count + 1)
      | none =>
        match findRelaxGenre ctx idx with
        | some g =>
          let i := idxOf idx g
          let m := (bucketOf ctx g).getD i default
          (m, ⟨g, true, remainingGenreCount ctx idx⟩) ::
            diversity_loop ctx fuel (alistSet idx g (i + 1)) (some g) 1 (count + 1)
        | none => []
    else []

/-- The primary genre of a movie: the genre among its genres with the
single highest `common_genres` weight, strict improvement over an initial
highest weight of 0 (so non-positive weights never win). -/
def primary_genre (common : List (String × ℚ)) (movie_genres : List String) : Option String :=
  (movie_genres.foldl (fun (acc : Option String × ℚ) gn =>
    match alookup common gn with
    | some w => if acc.2 < w then (some gn, w) else acc
    | none => acc) (none, (0 : ℚ))).1

/-- The movie's `genres` field with the `.get('genres', [])` default. -/
def movieGenresOf (sm : ScoredMovie) : List String := sm.movie.genres.getD []

/-- The bucket-partition pass of `apply_genre_diversity`: each candidate is
appended to its primary genre's bucket, or to `'other'`. -/
def partitionByGenre (common : List (String × ℚ)) (groups0 : List (String × List ScoredMovie))
    (movies : List ScoredMovie) : List (String × List ScoredMovie) :=
  movies.foldl (fun gs sm =>
    let mg := movieGenresOf sm
    if mg = [] then alistModify gs "other" (fun l => l ++ [sm])
    else
      match primary_genre common mg with
      | some pg => alistModify gs pg (fun l => l ++ [sm])
      | none => alistModify gs "other" (fun l => l ++ [sm])) groups0

/-- The setup phase of `apply_genre_diversity`: genre buckets keyed by the
common genres sorted by weight (descending, stable) plus `'other'`,
buckets internally sorted by `combined_score` descending, the available
genres, the proportional targets, and the target-sorted scan order. -/
def diversityCtx (candidate_movies : List ScoredMovie) (common : List (String × ℚ)) : DivCtx :=
  let top_genres := sortByGE (fun a b => decide (b.2 ≤ a.2)) common
  let all_genre_names := top_genres.map Prod.fst
  let groups0 := alistSet (all_genre_names.map (fun g => (g, ([] : List ScoredMovie)))) "other" []
  let grouped := partitionByGenre common groups0 candidate_movies
  let groups := grouped.map (fun p =>
    (p.1, sortByGE (fun a b => decide (b.combined_score ≤ a.combined_score)) p.2))
  let availG := (groups.map Prod.fst).filter (fun g => (alookup groups g).getD [] ≠ [])
  let total := (availG.filter (fun g => g ≠ "other")).foldl
    (fun acc g => acc + (alookup common g).getD 0) 0 + 1
  let targets := availG.map (fun g =>
    let weight : ℚ := if g = "other" then 1 else (alookup common g).getD 0
    let t : Int := ratTrunc (weight / total * (Config.MAX_RECOMMENDATIONS : ℚ))
    let blen := ((alookup groups g).getD []).length
    (g, if 0 < blen then (intMax (intMin t (blen : Int)) 1).toNat else 0))
  let sortedG := sortByGE
    (fun a b => decide ((alookup targets b).getD 0 ≤ (alookup targets a).getD 0)) availG
  ⟨groups, targets, sortedG, availG⟩

/-- `apply_genre_diversity` beyond the length guard, with the pick trace. -/
def apply_genre_diversity_aux (candidate_movies : List ScoredMovie)
    (common : List (String × ℚ)) : List (ScoredMovie × Pick) :=
  let ctx := diversityCtx candidate_movies common
  diversity_loop ctx Config.MAX_RECOMMENDATIONS (ctx.groups.map (fun p => (p.1, (0 : Nat))))
    none 0 0

/-- `RecommendationEngine.apply_genre_diversity`: identity on lists of at
most 50 candidates (a hard-coded literal in the source), otherwise the
interleaving loop truncated to `Config.MAX_RECOMMENDATIONS`. -/
def apply_genre_diversity (candidate_movies : List ScoredMovie)
    (common : List (String × ℚ)) : List ScoredMovie :=
  if candidate_movies.length ≤ 50 then candidate_movies
  else ((apply_genre_diversity_aux candidate_movies common).map Prod.fst).take
    Config.MAX_RECOMMENDATIONS

/-- `movie.get('title', '').lower().strip()` in the candidate loop. -/
def normalizedTitle (m : DbMovie) : String := strTrim (strLower (m.title.getD ""))

/-- The rating/votes portion of the qualification gate, including the
`try`/`except (ValueError, TypeError): continue` semantics: a conversion
or comparison error fails the gate. -/
def ratingVotesGate (m : DbMovie) : Bool :=
  match pyFloat (m.imdb_rating.getD (.num 0)) with
  | .error _ => false
  | .ok r =>
    if r < Config.MIN_IMDB_RATING then false
    else
      match pyLtNum (m.imdb_votes.getD (.num 0)) 1000 with
      | .error _ => false
      | .ok lt => ¬ lt

/-- The full candidate qualification gate of `blend_movies`
(title unseen, non-empty overlapping genres, rating ≥ threshold,
votes ≥ 1000); a candidate is scored iff this holds. -/
def passes_gates (w1 w2 : List String) (commonKeys : List String) (m : DbMovie) : Bool :=
  let t := normalizedTitle m
  if t ∈ w1 ∨ t ∈ w2 then false
  else
    let gs := m.genres.getD []
    if gs = [] then false
    else
      let normMovie := gs.map strTrim
      let normCommon := commonKeys.map strTrim
      if ¬ normMovie.any (fun g => g ∈ normCommon) then false
      else ratingVotesGate m

/-- The weighted combination
`genre*0.2 + plot*0.4 + actor*0.4 + imdb_bonus*0.4 + recency`. -/
def combinedScore (s : Scores) : ℚ :=
  s.genre_score * Config.GENRE_WEIGHT + s.plot_score * Config.PLOT_WEIGHT +
  s.actor_score * Config.ACTOR_WEIGHT + s.imdb_bonus * Config.IMDB_BONUS_WEIGHT +
  s.recency_bonus

/-- Python `str(v)` as used in the f-string `f"{title}_{year}"`; numeric
rendering is simplified (no claim depends on the printed form of a
numeric year). -/
def pyValStr : PyVal → String
  | .str s => s
  | .num q => if q.den = 1 then toString q.num else toString q.num ++ "/" ++ toString q.den
  | .vnone => "None"

/-- The `unique_key` attached to a scored candidate: `title_year`, else
`title_imdbID`, else `title_position`. -/
def uniqueKeyOf (m : DbMovie) (idx : Nat) : String :=
  let title := m.title.getD "Unknown"
  let year := m.year.getD (.str "")
  if pyTruthy year then title ++ "_" ++ pyValStr year
  else
    let iid := m.imdb_id.getD ""
    if iid ≠ "" then title ++ "_" ++ iid
    else title ++ "_" ++ toString idx

/-- One iteration of the candidate loop of `blend_movies`: `.ok none`
when a gate fails or the combined score is not positive, `.ok (some _)`
with the fresh scored copy otherwise; `idx` is `len(candidate_movies)` at
append time (used only by the `unique_key` fallback). -/
def processCandidate (enum : List String → List String) (w1 w2 : List String)
    (common : List (String × ℚ)) (plots1 plots2 : String) (u1 u2 : List UserMovie)
    (m : DbMovie) (idx : Nat) : Except Unit (Option ScoredMovie) :=
  if ¬ passes_gates w1 w2 (common.map Prod.fst) m then .ok none
  else do
    let s ← calculate_movie_score enum m common plots1 plots2 u1 u2
    let cs := combinedScore s
    if 0 < cs then
      pure (some ⟨m, s.genre_score, s.plot_score, s.actor_score, s.imdb_bonus,
        s.recency_bonus, cs, uniqueKeyOf m idx⟩)
    else pure none

/-- The candidate loop over the movie database. -/
def buildCandidatesFrom (enum : List String → List String) (w1 w2 : List String)
    (common : List (String × ℚ)) (plots1 plots2 : String) (u1 u2 : List UserMovie)
    (acc : List ScoredMovie) : List DbMovie → Except Unit (List ScoredMovie)
  | [] => .ok acc
  | m :: rest => do
    let r ← processCandidate enum w1 w2 common plots1 plots2 u1 u2 m acc.length
    match r with
    | some sm => buildCandidatesFrom enum w1 w2 common plots1 plots2 u1 u2 (acc ++ [sm]) rest
    | none => buildCandidatesFrom enum w1 w2 common plots1 plots2 u1 u2 acc rest

/-- First sort tie-break key:
`float(x.get('imdb_rating', 0)) if x.get('imdb_rating', 'N/A') != 'N/A' else 0`.
The `getD 0` after `pyFloat` is unreachable for gate-passed movies (the
gate already converted the same value). -/
def sortKeyRating (sm : ScoredMovie) : ℚ :=
  match sm.movie.imdb_rating with
  | none => 0
  | some v => if v = .str "N/A" then 0 else ((pyFloat v).toOption.getD 0)

/-- Second sort tie-break key:
`int(x.get('imdb_votes', 0)) if x.get('imdb_votes') else 0`. -/
def sortKeyVotes (sm : ScoredMovie) : Int :=
  match sm.movie.imdb_votes with
  | none => 0
  | some v => if pyTruthy v then ((pyInt v).toOption.getD 0) else 0

/-- Lexicographic order on `(combined_score, rating key, votes key)`. -/
def keyLE (x y : ℚ × ℚ × Int) : Prop :=
  x.1 < y.1 ∨ (x.1 = y.1 ∧ (x.2.1 < y.2.1 ∨ (x.2.1 = y.2.1 ∧ x.2.2 ≤ y.2.2)))

instance (x y : ℚ × ℚ × Int) : Decidable (keyLE x y) := by
  unfold keyLE
  infer_instance

/-- The three-key tuple of a scored candidate. -/
def candidateKey (sm : ScoredMovie) : ℚ × ℚ × Int :=
  (sm.combined_score, sortKeyRating sm, sortKeyVotes sm)

/-- `a` sorts at or before `b` in the descending three-key order. -/
def candidateGE (a b : ScoredMovie) : Bool := decide (keyLE (candidateKey b) (candidateKey a))

/-- `RecommendationEngine.blend_movies` (and the module-level
`blend_movies` wrapper), parameterized by the actor-set iteration order. -/
def blend_movies (enum : List String → List String) (u1 u2 : List UserMovie)
    (db : List DbMovie) : Except Unit (List ScoredMovie) := do
  let w1 := get_watched_movies u1
  let w2 := get_watched_movies u2
  let gw1 := calculate_genre_weights u1
  let gw2 := calculate_genre_weights u2
  let common := get_common_genres gw1 gw2
  let plots1 := extract_user_plots u1
  let plots2 := extract_user_plots u2
  let cands ← buildCandidatesFrom enum w1 w2 common plots1 plots2 u1 u2 [] db
  let sorted := sortByGE candidateGE cands
  pure (apply_genre_diversity sorted common)

/-- The score keys that `blend_movies` adds to a candidate copy
(`movie_result.update(scores)`, `['combined_score']`, `['unique_key']`). -/
structure ScoreFields where
  genre_score : ℚ
  plot_score : ℚ
  actor_score : ℚ
  imdb_bonus : ℚ
  recency_bonus : ℚ
  combined_score : ℚ
  unique_key : String
deriving DecidableEq, Repr

/-- A movie dictionary as a heap cell: the database fields plus the score
keys when they have been attached (`none` = the keys are absent). -/
structure MovieCell where
  base : DbMovie
  scoreFields : Option ScoreFields
deriving DecidableEq, Repr

/-- A heap of movie dictionaries.  `self.movies_database` is the list of
cells `0, ..., length-1`; `movie.copy()` allocates a fresh cell and
`movie_result[...] = ...` writes to it.  This store-passing variant of the
candidate loop makes the heap effects of `blend_movies` explicit so that
the absence of writes to the database cells is a provable statement
rather than a by-construction triviality. -/
abbrev Store := List MovieCell

/-- Store-passing variant of `processCandidate`: reads the candidate from
its cell, and on success allocates the copy and writes the score fields to
the copy only. -/
def processCandidateStore (enum : List String → List String) (w1 w2 : List String)
    (common : List (String × ℚ)) (plots1 plots2 : String) (u1 u2 : List UserMovie)
    (store : Store) (r : Nat) (idx : Nat) : Except Unit (Option Nat) × Store :=
  match store.get? r with
  | none => (.ok none, store)
  | some cell =>
    let m := cell.base
    if ¬ passes_gates w1 w2 (common.map Prod.fst) m then (.ok none, store)
    else
      match calculate_movie_score enum m common plots1 plots2 u1 u2 with
      | .error e => (.error e, store)
      | .ok s =>
        let cs := combinedScore s
        if 0 < cs then
          let store1 := store ++ [cell]
          let rNew := store.length
          let store2 := store1.set rNew
            ⟨cell.base, some ⟨s.genre_score, s.plot_score, s.actor_score, s.imdb_bonus,
              s.recency_bonus, cs, uniqueKeyOf m idx⟩⟩
          (.ok (some rNew), store2)
        else (.ok none, store)

/-- Store-passing candidate loop; an exception propagates with the store
as it stood when it was raised. -/
def buildCandidatesStore (enum : List String → List String) (w1 w2 : List String)
    (common : List (String × ℚ)) (plots1 plots2 : String) (u1 u2 : List UserMovie)
    (store : Store) (acc : List Nat) : List Nat → Except Unit (List Nat) × Store
  | [] => (.ok acc, store)
  | r :: rest =>
    match processCandidateStore enum w1 w2 common plots1 plots2 u1 u2 store r acc.length with
    | (.error e, store1) => (.error e, store1)
    | (.ok none, store1) =>
      buildCandidatesStore enum w1 w2 common plots1 plots2 u1 u2 store1 acc rest
    | (.ok (some rn), store1) =>
      buildCandidatesStore enum w1 w2 common plots1 plots2 u1 u2 store1 (acc ++ [rn]) rest

/-- Read a scored copy out of its cell (total; candidate refs always carry
score fields). -/
def readScored (store : Store) (r : Nat) : ScoredMovie :=
  match store.get? r with
  | some cell =>
    match cell.scoreFields with
    | some f => ⟨cell.base, f.genre_score, f.plot_score, f.actor_score, f.imdb_bonus,
        f.recency_bonus, f.combined_score, f.unique_key⟩
    | none => ⟨cell.base, 0, 0, 0, 0, 0, 0, ""⟩
  | none => default

/-- `blend_movies` with the movie database as a heap: the pipeline around
the candidate loop only reads user data and the copies (the sort and the
diversity pass reorder the copies, never writing any cell). -/
def blend_movies_store (enum : List String → List String) (u1 u2 : List UserMovie)
    (store : Store) : Except Unit (List ScoredMovie) × Store :=
  let w1 := get_watched_movies u1
  let w2 := get_watched_movies u2
  let gw1 := calculate_genre_weights u1
  let gw2 := calculate_genre_weights u2
  let common := get_common_genres gw1 gw2
  let plots1 := extract_user_plots u1
  let plots2 := extract_user_plots u2
  match buildCandidatesStore enum w1 w2 common plots1 plots2 u1 u2 store []
      (List.range store.length) with
  | (.error e, store1) => (.error e, store1)
  | (.ok refs, store1) =>
    let cands := refs.map (readScored store1)
    let sorted := sortByGE candidateGE cands
    (.ok (apply_genre_diversity sorted common), store1)

def exceptDecEq {ε α : Type} [DecidableEq ε] [DecidableEq α] :
    (a b : Except ε α) → Decidable (a = b)
  | .error e1, .error e2 =>
    if h : e1 = e2 then isTrue (by rw [h]) else isFalse (fun hc => h (Except.error.inj hc))
  | .error _, .ok _ => isFalse (fun hc => Except.noConfusion hc)
  | .ok _, .error _ => isFalse (fun hc => Except.noConfusion hc)
  | .ok a1, .ok a2 =>
    if h : a1 = a2 then isTrue (by rw [h]) else isFalse (fun hc => h (Except.ok.inj hc))

instance {ε α : Type} [DecidableEq ε] [DecidableEq α] : DecidableEq (Except ε α) := exceptDecEq

/-- Reversed enumeration: a legal iteration order of any set, distinct
from first-insertion order. -/
def enumRev : List String → List String := fun l => l.reverse

/-- The determinism property claimed of `blend_movies`: the output is a
function of the two user lists and the database alone, for every pair of
legal actor-set iteration behaviors. -/
def deterministicBlendProp : Prop :=
  ∀ (e1 e2 : List String → List String) (u1 u2 : List UserMovie) (db : List DbMovie),
    (∀ s : List String, s.Nodup → validEnum (e1 s) s) →
    (∀ s : List String, s.Nodup → validEnum (e2 s) s) →
    blend_movies e1 u1 u2 db = blend_movies e2 u1 u2 db

/-- All length-3 windows of consecutive elements. -/
def windows3 {α : Type} : List α → List (α × α × α)
  | a :: b :: c :: rest => (a, b, c) :: windows3 (b :: c :: rest)
  | _ => []

/-- The pick trace of a diversity run. -/
def divPicks (c : List ScoredMovie) (common : List (String × ℚ)) : List Pick :=
  (apply_genre_diversity_aux c common).map Prod.snd

/-- A same-genre window is excused when one of its picks came from the
relaxation branch at a moment when at most one bucket had remaining
items. -/
def pickWindowExcused (w : Pick × Pick × Pick) : Prop :=
  (w.1.relax ∧ w.1.remainingGenres ≤ 1) ∨ (w.2.1.relax ∧ w.2.1.remainingGenres ≤ 1) ∨
  (w.2.2.relax ∧ w.2.2.remainingGenres ≤ 1)

/-- The claimed anti-consecutive-genre property of the balancer on one
input: above the 50-candidate threshold, a genre appears 3 times in a row
only when forced because all remaining items share one genre. -/
def claimC3Prop (c : List ScoredMovie) (common : List (String × ℚ)) : Prop :=
  50 < c.length →
    ∀ w ∈ windows3 (divPicks c common),
      (w.1.genre = w.2.1.genre ∧ w.2.1.genre = w.2.2.genre) → pickWindowExcused w

/-- A user movie with a well-formed rating and a genre. -/
def umGood1 : UserMovie :=
  { title := some "good1", genre := some "Action", letterboxRating := some (.str "5") }

/-- A user movie whose `letterboxRating` holds a non-numeric string and
which lists an actor: `float('abc')` raises inside
`get_actor_overlap_score` (no `try` around `_extract_movie_rating`). -/
def umBad : UserMovie :=
  { title := some "bad", letterboxRating := some (.str "abc"), fieldActors := some (.str "A") }

/-- Second user's well-formed movie. -/
def umGood2 : UserMovie :=
  { title := some "good2", genre := some "Action", letterboxRating := some (.str "5") }

/-- A qualifying candidate whose cast triggers the actor-overlap scoring. -/
def dbCand : DbMovie :=
  { title := some "cand", genres := some ["Action"], imdb_rating := some (.num 8),
    imdb_votes := some (.num 5000), castList := some (.list ["A"]) }

/-- User movie for the order-sensitivity counterexample: top-billed `A`. -/
def c2_m1 : UserMovie :=
  { title := some "t1", genre := some "Action", letterboxRating := some (.str "5"),
    fieldActors := some (.str "A") }

/-- User movie for the order-sensitivity counterexample: `B` billed
second, so `A` and `B` carry different importances. -/
def c2_m2 : UserMovie :=
  { title := some "t2", genre := some "Action", letterboxRating := some (.str "5"),
    fieldActors := some (.str "C, B") }

/-- Candidate whose actor set is `{a, b}`. -/
def c2_db : List DbMovie :=
  [{ title := some "cand", genres := some ["Action"], imdb_rating := some (.num 8),
     imdb_votes := some (.num 5000), castList := some (.list ["A", "B"]) }]

/-- A scored candidate with the given single genre (inputs for the
balancer claims). -/
def mkCand (g : String) (i : Nat) : ScoredMovie :=
  ⟨{ title := some ("m" ++ toString i), genres := some [g] }, 0, 0, 0, 0, 0, 0, ""⟩

/-- 51 candidates: 45 of genre `A`, 6 of genre `B`. -/
def c51 : List ScoredMovie :=
  ((List.range 45).map (mkCand "A")) ++ ((List.range 6).map (fun i => mkCand "B" (45 + i)))

/-- Common-genre map giving `A` weight 9 and `B` weight 1 (targets 40
and 4). -/
def g2 : List (String × ℚ) := [("A", 9), ("B", 1)]

/-- Candidate at the excluded side of the vote-count boundary. -/
def m999 : DbMovie :=
  { title := some "v999", genres := some ["Action"], imdb_rating := some (.num 8),
    imdb_votes := some (.num 999) }

/-- Candidate at the included side of the vote-count boundary. -/
def m1000 : DbMovie :=
  { title := some "v1000", genres := some ["Action"], imdb_rating := some (.num 8),
    imdb_votes := some (.num 1000) }

/-- User movie giving actor `x` one appearance and `y` its first. -/
def c6_m1 : UserMovie :=
  { title := some "p", letterboxRating := some (.str "5"), fieldActors := some (.str "X, Y") }

/-- User movie giving actor `y` its second appearance. -/
def c6_m2 : UserMovie :=
  { title := some "q", letterboxRating := some (.str "5"), fieldActors := some (.str "Y") }

/-- The weighted-intersection entry of `get_common_genres` at one genre:
`some ((w1+w2)/2)` when the genre has strictly positive weight in both
maps, `none` otherwise. -/
def weightedAt (u1 u2 : List (String × ℚ)) (g : String) : Option ℚ :=
  match alookup u1 g, alookup u2 g with
  | some w1, some w2 => if 0 < w1 ∧ 0 < w2 then some ((w1 + w2) / 2) else none
  | _, _ => none

/-- Length of the leading run of quota-phase (non-relax) picks of genre
`g` in a pick trace. -/
def leadMainRun (g : String) : List Pick → Nat
  | [] => 0
  | p :: rest => if p.relax = false ∧ p.genre = g then leadMainRun g rest + 1 else 0

/-- The multiset of all movies held in the buckets. -/
def bucketsMS (groups : List (String × List ScoredMovie)) : Multiset ScoredMovie :=
  (groups.map (fun p => (p.2 : Multiset ScoredMovie))).sum

/-- The multiset of movies still available in the buckets at indices
`idx`. -/
def remainingMS (groups : List (String × List ScoredMovie)) (idx : List (String × Nat)) :
    Multiset ScoredMovie :=
  (groups.map (fun p => ((p.2.drop (idxOf idx p.1)) : Multiset ScoredMovie))).sum

instance claimC3PropDec (c : List ScoredMovie) (common : List (String × ℚ)) :
    Decidable (claimC3Prop c common) := by
  unfold claimC3Prop pickWindowExcused
  infer_instance

set_option maxRecDepth 100000

/-- C1: the spec says no exception escapes `blend_movies` under
malformed-but-well-typed input and that movies with non-numeric rating
fields are skipped.  The code contradicts this: `_extract_movie_rating`
applies `float` without a `try` block, and `get_actor_overlap_score`
(reached through `calculate_movie_score` whenever a qualifying candidate
has a cast) calls it on every user movie, so a user movie whose
`letterboxRating` is `'abc'` makes `blend_movies` raise `ValueError`.
This theorem evaluates the engine at that failing input. -/
theorem c1_blend_movies_raises_on_nonnumeric_rating :
    blend_movies enumId [umGood1, umBad] [umGood2] [dbCand] = .error () := by
  with_unfolding_all decide

/-- C7: the genre diversity balancer returns every input of length at most
50 (including exactly 50) unchanged; with 51 entries the diversity logic
engages — on the concrete 51-candidate input the output differs from the
input. -/
theorem c7_diversity_noop_boundary :
    (∀ (c : List ScoredMovie) (common : List (String × ℚ)),
        c.length ≤ 50 → apply_genre_diversity c common = c) ∧
    c51.length = 51 ∧ apply_genre_diversity c51 g2 ≠ c51 := by
  refine ⟨?_, by with_unfolding_all decide, by with_unfolding_all decide⟩
  intro c common h
  unfold apply_genre_diversity
  exact if_pos h

/-- Witness for `c7_diversity_noop_boundary`: the no-op branch at a
concrete input. -/
theorem c7_diversity_noop_boundary_witness :
    apply_genre_diversity [mkCand "A" 0] g2 = [mkCand "A" 0] :=
  c7_diversity_noop_boundary.1 [mkCand "A" 0] g2 (by decide)

/-- C5: a database movie that fails the qualification gate (title watched,
no overlapping genre, rating below 5.0, or votes below 1000, including
conversion failures) is never scored: the candidate loop step returns
`.ok none` without invoking the scorer (in particular no exception from
scoring can arise for it); at the vote-count boundary, 999 votes fail the
gate and 1000 votes pass it. -/
theorem c5_qualification_gates :
    (∀ (enum : List String → List String) (w1 w2 : List String)
        (common : List (String × ℚ)) (plots1 plots2 : String)
        (u1 u2 : List UserMovie) (m : DbMovie) (idx : Nat),
        passes_gates w1 w2 (common.map Prod.fst) m = false →
        processCandidate enum w1 w2 common plots1 plots2 u1 u2 m idx = .ok none) ∧
    passes_gates [] [] ["Action"] m999 = false ∧
    passes_gates [] [] ["Action"] m1000 = true := by
  refine ⟨?_, by with_unfolding_all decide, by with_unfolding_all decide⟩
  intro enum w1 w2 common plots1 plots2 u1 u2 m idx h
  unfold processCandidate
  rw [h]
  simp

/-- Witness for `c5_qualification_gates`: the 999-vote candidate is not
scored. -/
theorem c5_qualification_gates_witness :
    processCandidate enumId [] [] [("Action", (5 : ℚ))] "" "" [] [] m999 0 = .ok none :=
  c5_qualification_gates.1 enumId [] [] [("Action", (5 : ℚ))] "" "" [] [] m999 0
    (by with_unfolding_all decide)

/-- C2 counterexample: `blend_movies` is not a function of its inputs
alone.  The per-match base multipliers of `get_actor_overlap_score`
follow the iteration order over `movie_actor_set`, a CPython `set` of
strings whose iteration order is not determined by its contents (string
hashing is randomized per process).  Two legal iteration orders of the
same two-element actor set give different scores, hence different blend
outputs, on identical inputs. -/
theorem c2_counterexample_order_dependence : ¬ deterministicBlendProp := by
  intro h
  have heq := h enumId enumRev [c2_m1, c2_m2] [umGood2] c2_db
    (fun s hs => ⟨hs, fun a => Iff.rfl⟩)
    (fun s hs => ⟨by simpa [enumRev] using hs, fun a => by simp [enumRev]⟩)
  have hne : Except.map (fun l => l.map ScoredMovie.actor_score)
        (blend_movies enumId [c2_m1, c2_m2] [umGood2] c2_db) ≠
      Except.map (fun l => l.map ScoredMovie.actor_score)
        (blend_movies enumRev [c2_m1, c2_m2] [umGood2] c2_db) := by
    with_unfolding_all decide
  exact hne (by rw [heq])

/-- C2 amended: two invocations of `blend_movies` on identical inputs
produce identical output ordering and scores provided they also use the
same actor-set iteration order (as is the case within one process); the
engine itself carries no other state. -/
theorem c2_blend_deterministic_given_order (e1 e2 : List String → List String)
    (u1 u2 : List UserMovie) (db : List DbMovie) (h : ∀ s, e1 s = e2 s) :
    blend_movies e1 u1 u2 db = blend_movies e2 u1 u2 db := by
  have he : e1 = e2 := funext h
  rw [he]

/-- Witness for `c2_blend_deterministic_given_order`. -/
theorem c2_blend_deterministic_given_order_witness :
    blend_movies enumId [umGood1] [umGood2] [dbCand] =
      blend_movies enumId [umGood1] [umGood2] [dbCand] :=
  c2_blend_deterministic_given_order enumId enumId [umGood1] [umGood2] [dbCand]
    (fun _ => rfl)

theorem alookup_isSome_iff {α : Type} (l : List (String × α)) (k : String) :
    (alookup l k).isSome ↔ k ∈ l.map Prod.fst := by
  induction l with
  | nil => simp [alookup]
  | cons p rest ih =>
    by_cases h : p.1 = k
    · simp [alookup, h]
    · simp only [alookup, h, if_false, List.map_cons, List.mem_cons, ih]
      constructor
      · exact Or.inr
      · rintro (hk | hk)
        · exact absurd hk.symm h
        · exact hk

theorem alookup_filterMap_keyed {β : Type} (l : List String) (f : String → Option β)
    (g : String) (hl : l.Nodup) :
    alookup (l.filterMap (fun x => (f x).map (fun v => (x, v)))) g =
      if g ∈ l then f g else none := by
  induction l with
  | nil => simp [alookup]
  | cons a l ih =>
    rw [List.nodup_cons] at hl
    obtain ⟨ha, hl2⟩ := hl
    rw [List.filterMap_cons]
    cases hfa : f a with
    | some v =>
      simp only [Option.map_some']
      by_cases hg : a = g
      · subst hg
        simp [alookup, hfa]
      · simp only [alookup, hg, if_false, ih hl2, List.mem_cons]
        by_cases hmem : g ∈ l
        · simp [hmem]
        · simp only [hmem, if_false, or_false]
          rw [if_neg (fun hh : g = a => hg hh.symm)]
    | none =>
      simp only [Option.map_none']
      rw [ih hl2]
      by_cases hg : g = a
      · subst hg
        simp [ha, hfa]
      · simp [List.mem_cons, hg]

theorem alookup_const_map (l : List String) (q : ℚ) (g : String) :
    alookup (l.map (fun x => (x, q))) g = if g ∈ l then some q else none := by
  induction l with
  | nil => simp [alookup]
  | cons a l ih =>
    by_cases h : a = g
    · simp [alookup, h]
    · simp only [List.map_cons, alookup, h, if_false, ih, List.mem_cons]
      by_cases hmem : g ∈ l
      · simp [hmem]
      · simp only [hmem, if_false, or_false]
        rw [if_neg (fun hh : g = a => h hh.symm)]

theorem weightedAt_comm (u1 u2 : List (String × ℚ)) (g : String) :
    weightedAt u1 u2 g = weightedAt u2 u1 g := by
  unfold weightedAt
  cases alookup u1 g with
  | none => cases alookup u2 g <;> rfl
  | some w1 =>
    cases alookup u2 g with
    | none => rfl
    | some w2 =>
      simp only [and_comm, add_comm w1 w2]

theorem weightedAt_eq_none_of_not_common (u1 u2 : List (String × ℚ)) (g : String)
    (h : ¬((alookup u1 g).isSome ∧ (alookup u2 g).isSome)) :
    weightedAt u1 u2 g = none := by
  unfold weightedAt
  cases h1 : alookup u1 g with
  | none => rfl
  | some w1 =>
    cases h2 : alookup u2 g with
    | none => rfl
    | some w2 => exact absurd ⟨by simp [h1], by simp [h2]⟩ h

theorem get_common_genres_eq (u1 u2 : List (String × ℚ)) :
    get_common_genres u1 u2 =
      (if ((u1.map Prod.fst).filter (fun x => (alookup u2 x).isSome)).filterMap
          (fun x => (weightedAt u1 u2 x).map (fun v => (x, v))) = [] then
        ((u1.map Prod.fst).filter (fun x => (alookup u2 x).isSome)).map
          (fun x => (x, (5 : ℚ)))
      else
        ((u1.map Prod.fst).filter (fun x => (alookup u2 x).isSome)).filterMap
          (fun x => (weightedAt u1 u2 x).map (fun v => (x, v)))) := by
  have hfun : (fun x => match alookup u1 x, alookup u2 x with
        | some w1, some w2 => if 0 < w1 ∧ 0 < w2 then some (x, (w1 + w2) / 2) else none
        | _, _ => none) =
      fun x : String => (weightedAt u1 u2 x).map (fun v => (x, v)) := by
    funext x
    unfold weightedAt
    cases alookup u1 x with
    | none => rfl
    | some w1 =>
      cases alookup u2 x with
      | none => rfl
      | some w2 =>
        by_cases hw : 0 < w1 ∧ 0 < w2 <;> simp [hw]
  unfold get_common_genres
  rw [hfun]

theorem mem_common_filter_iff (u1 u2 : List (String × ℚ)) (g : String) :
    g ∈ (u1.map Prod.fst).filter (fun x => (alookup u2 x).isSome) ↔
      (alookup u1 g).isSome ∧ (alookup u2 g).isSome := by
  rw [List.mem_filter]
  exact and_congr_left (fun _ => (alookup_isSome_iff u1 g).symm)

theorem weighted_filterMap_lookup (u1 u2 : List (String × ℚ))
    (h1 : (u1.map Prod.fst).Nodup) (g : String) :
    alookup (((u1.map Prod.fst).filter (fun x => (alookup u2 x).isSome)).filterMap
      (fun x => (weightedAt u1 u2 x).map (fun v => (x, v)))) g = weightedAt u1 u2 g := by
  rw [alookup_filterMap_keyed _ _ _ (h1.filter _)]
  by_cases hg : g ∈ (u1.map Prod.fst).filter (fun x => (alookup u2 x).isSome)
  · rw [if_pos hg]
  · rw [if_neg hg]
    have hns : ¬((alookup u1 g).isSome ∧ (alookup u2 g).isSome) := fun hcon =>
      hg ((mem_common_filter_iff u1 u2 g).mpr hcon)
    rw [weightedAt_eq_none_of_not_common u1 u2 g hns]

theorem weighted_filterMap_empty_iff (u1 u2 : List (String × ℚ)) :
    (((u1.map Prod.fst).filter (fun x => (alookup u2 x).isSome)).filterMap
      (fun x => (weightedAt u1 u2 x).map (fun v => (x, v))) = []) ↔
    ∀ g, weightedAt u1 u2 g = none := by
  rw [List.filterMap_eq_nil_iff]
  constructor
  · intro h g
    by_cases hg : g ∈ (u1.map Prod.fst).filter (fun x => (alookup u2 x).isSome)
    · have := h g hg
      simpa using this
    · exact weightedAt_eq_none_of_not_common u1 u2 g
        (fun hcon => hg ((mem_common_filter_iff u1 u2 g).mpr hcon))
  · intro h x _
    simp [h x]

/-- C4: when the weighted intersection of two genre-weight maps is empty
but the raw genre-name intersection is non-empty, `get_common_genres`
assigns exactly weight 5.0 to every genre present in both maps and to no
other genre. -/
theorem c4_fallback_assigns_five (u1 u2 : List (String × ℚ))
    (h1 : (u1.map Prod.fst).Nodup)
    (hweighted : ∀ g w1 w2, alookup u1 g = some w1 → alookup u2 g = some w2 →
      ¬(0 < w1 ∧ 0 < w2))
    (hraw : ∃ g, (alookup u1 g).isSome ∧ (alookup u2 g).isSome) :
    ∀ g, alookup (get_common_genres u1 u2) g =
      if (alookup u1 g).isSome ∧ (alookup u2 g).isSome then some (5 : ℚ) else none := by
  intro g
  have hwnone : ∀ g', weightedAt u1 u2 g' = none := by
    intro g'
    unfold weightedAt
    cases hu1 : alookup u1 g' with
    | none => rfl
    | some w1 =>
      cases hu2 : alookup u2 g' with
      | none => rfl
      | some w2 => simp [hweighted g' w1 w2 hu1 hu2]
  rw [get_common_genres_eq, if_pos ((weighted_filterMap_empty_iff u1 u2).mpr hwnone),
    alookup_const_map]
  by_cases hg : (alookup u1 g).isSome ∧ (alookup u2 g).isSome
  · rw [if_pos hg, if_pos ((mem_common_filter_iff u1 u2 g).mpr hg)]
  · rw [if_neg hg, if_neg (fun hmem => hg ((mem_common_filter_iff u1 u2 g).mp hmem))]

/-- Witness for `c4_fallback_assigns_five`: maps sharing the name
`Action` with non-positive weight on one side. -/
theorem c4_fallback_assigns_five_witness :
    alookup (get_common_genres [("Action", (0 : ℚ))] [("Action", (3 : ℚ))]) "Action" =
      if (alookup [("Action", (0 : ℚ))] "Action").isSome ∧
          (alookup [("Action", (3 : ℚ))] "Action").isSome then some (5 : ℚ) else none := by
  refine c4_fallback_assigns_five [("Action", (0 : ℚ))] [("Action", (3 : ℚ))] (by decide)
    ?_ ⟨"Action", by decide, by decide⟩ "Action"
  intro g w1 w2 hg1 hg2
  unfold alookup at hg1
  split at hg1
  · rintro ⟨hpos, _⟩
    cases hg1
    exact lt_irrefl 0 hpos
  · cases hg1

/-- C8: `get_common_genres` is commutative as a map: for every genre the
two orders of arguments give the same lookup result. -/
theorem c8_common_genres_commutative (u1 u2 : List (String × ℚ))
    (h1 : (u1.map Prod.fst).Nodup) (h2 : (u2.map Prod.fst).Nodup) :
    ∀ g, alookup (get_common_genres u1 u2) g = alookup (get_common_genres u2 u1) g := by
  intro g
  rw [get_common_genres_eq u1 u2, get_common_genres_eq u2 u1]
  by_cases hempty : ∀ g', weightedAt u1 u2 g' = none
  · have hempty2 : ∀ g', weightedAt u2 u1 g' = none := fun g' => by
      rw [weightedAt_comm]
      exact hempty g'
    rw [if_pos ((weighted_filterMap_empty_iff u1 u2).mpr hempty),
      if_pos ((weighted_filterMap_empty_iff u2 u1).mpr hempty2),
      alookup_const_map, alookup_const_map]
    by_cases hg : (alookup u1 g).isSome ∧ (alookup u2 g).isSome
    · rw [if_pos ((mem_common_filter_iff u1 u2 g).mpr hg),
        if_pos ((mem_common_filter_iff u2 u1 g).mpr ⟨hg.2, hg.1⟩)]
    · rw [if_neg (fun hmem => hg ((mem_common_filter_iff u1 u2 g).mp hmem)),
        if_neg (fun hmem => hg (And.symm ((mem_common_filter_iff u2 u1 g).mp hmem)))]
  · have hne : ¬(((u1.map Prod.fst).filter (fun x => (alookup u2 x).isSome)).filterMap
        (fun x => (weightedAt u1 u2 x).map (fun v => (x, v))) = []) := fun hcon =>
      hempty ((weighted_filterMap_empty_iff u1 u2).mp hcon)
    have hne2 : ¬(((u2.map Prod.fst).filter (fun x => (alookup u1 x).isSome)).filterMap
        (fun x => (weightedAt u2 u1 x).map (fun v => (x, v))) = []) := fun hcon =>
      hempty (fun g' => by
        rw [weightedAt_comm]
        exact (weighted_filterMap_empty_iff u2 u1).mp hcon g')
    rw [if_neg hne, if_neg hne2, weighted_filterMap_lookup u1 u2 h1 g,
      weighted_filterMap_lookup u2 u1 h2 g, weightedAt_comm]

/-- Witness for `c8_common_genres_commutative`. -/
theorem c8_common_genres_commutative_witness :
    alookup (get_common_genres [("A", (2 : ℚ))] [("A", (4 : ℚ))]) "A" =
      alookup (get_common_genres [("A", (4 : ℚ))] [("A", (2 : ℚ))]) "A" :=
  c8_common_genres_commutative [("A", (2 : ℚ))] [("A", (4 : ℚ))] (by decide) (by decide) "A"

theorem insertByGE_perm {α : Type} (ge : α → α → Bool) (x : α) (l : List α) :
    (insertByGE ge x l).Perm (x :: l) := by
  induction l with
  | nil => exact List.Perm.refl _
  | cons y ys ih =>
    unfold insertByGE
    by_cases h : ge x y
    · rw [if_pos h]
    · rw [if_neg h]
      exact (ih.cons y).trans (List.Perm.swap x y ys)

theorem sortByGE_perm {α : Type} (ge : α → α → Bool) (l : List α) :
    (sortByGE ge l).Perm l := by
  induction l with
  | nil => exact List.Perm.refl _
  | cons a l ih =>
    exact (insertByGE_perm ge a (sortByGE ge l)).trans (ih.cons a)

theorem alookup_eq_of_mem_nodup {α : Type} {l : List (String × α)} {k : String} {v : α}
    (hmem : (k, v) ∈ l) (hnd : (l.map Prod.fst).Nodup) : alookup l k = some v := by
  induction l with
  | nil => cases hmem
  | cons p rest ih =>
    rw [List.map_cons, List.nodup_cons] at hnd
    rcases List.mem_cons.mp hmem with h | h
    · rw [← h]
      simp [alookup]
    · by_cases hpk : p.1 = k
      · exact absurd (hpk ▸ List.mem_map.mpr ⟨(k, v), h, rfl⟩) hnd.1
      · simp only [alookup, hpk, if_false]
        exact ih h hnd.2

theorem alistUpsert_keys {α : Type} (l : List (String × α)) (k : String) (d0 : α) (f : α → α) :
    (alistUpsert l k d0 f).map Prod.fst =
      if k ∈ l.map Prod.fst then l.map Prod.fst else l.map Prod.fst ++ [k] := by
  induction l with
  | nil => simp [alistUpsert]
  | cons p rest ih =>
    by_cases h : p.1 = k
    · simp [alistUpsert, h]
    · simp only [alistUpsert, h, if_false, List.map_cons, ih, List.mem_cons]
      by_cases hmem : k ∈ rest.map Prod.fst
      · simp [hmem]
      · rw [if_neg (show ¬(k = p.1 ∨ k ∈ rest.map Prod.fst) by
          rintro (hc | hc)
          · exact h hc.symm
          · exact hmem hc), if_neg hmem, List.cons_append]

theorem alistUpsert_keys_nodup {α : Type} (l : List (String × α)) (k : String) (d0 : α)
    (f : α → α) (h : (l.map Prod.fst).Nodup) :
    ((alistUpsert l k d0 f).map Prod.fst).Nodup := by
  rw [alistUpsert_keys]
  by_cases hmem : k ∈ l.map Prod.fst
  · rwa [if_pos hmem]
  · rw [if_neg hmem]
    rw [List.nodup_append]
    refine ⟨h, List.nodup_singleton k, ?_⟩
    intro a ha hb
    rw [List.mem_singleton] at hb
    exact hmem (hb ▸ ha)

theorem foldl_actor_upsert_keys_nodup (rating : ℚ) (xs : List (Nat × String))
    (tbl : List (String × ActorStat)) (h : (tbl.map Prod.fst).Nodup) :
    ((xs.foldl (fun t p =>
      if p.2 ≠ "" then
        alistUpsert t (strLower p.2) ⟨0, 0, 0⟩
          (fun st => ⟨st.count + 1, st.total_rating + rating * positionWeight p.1,
            st.weight + positionWeight p.1⟩)
      else t) tbl).map Prod.fst).Nodup := by
  induction xs generalizing tbl with
  | nil => exact h
  | cons x xs ih =>
    rw [List.foldl_cons]
    by_cases hx : x.2 ≠ ""
    · rw [if_pos hx]
      exact ih _ (alistUpsert_keys_nodup _ _ _ _ h)
    · rw [if_neg hx]
      exact ih _ h

theorem userActorAdd_keys_nodup (tbl : List (String × ActorStat)) (m : UserMovie)
    (tbl2 : List (String × ActorStat)) (h : (tbl.map Prod.fst).Nodup)
    (heq : userActorAdd tbl m = .ok tbl2) : (tbl2.map Prod.fst).Nodup := by
  unfold userActorAdd at heq
  cases hr : extract_movie_rating m with
  | error e => rw [hr] at heq; cases heq
  | ok r =>
    rw [hr] at heq
    simp only [Bind.bind, Except.bind] at heq
    by_cases hr0 : r = 0
    · rw [if_pos hr0] at heq
      cases heq
      exact h
    · rw [if_neg hr0] at heq
      by_cases ha : extract_movie_actors m = []
      · rw [if_pos ha] at heq
        cases heq
        exact h
      · rw [if_neg ha] at heq
        cases heq
        exact foldl_actor_upsert_keys_nodup r _ tbl h

theorem buildUserActorScoresFrom_keys_nodup :
    ∀ (u : List UserMovie) (tbl tbl2 : List (String × ActorStat)),
      (tbl.map Prod.fst).Nodup →
      buildUserActorScoresFrom tbl u = .ok tbl2 → (tbl2.map Prod.fst).Nodup := by
  intro u
  induction u with
  | nil =>
    intro tbl tbl2 h heq
    unfold buildUserActorScoresFrom at heq
    cases heq
    exact h
  | cons m rest ih =>
    intro tbl tbl2 h heq
    unfold buildUserActorScoresFrom at heq
    cases hadd : userActorAdd tbl m with
    | error e =>
      rw [hadd] at heq
      simp only [Bind.bind, Except.bind] at heq
      cases heq
    | ok tbl1 =>
      rw [hadd] at heq
      simp only [Bind.bind, Except.bind] at heq
      exact ih tbl1 tbl2 (userActorAdd_keys_nodup tbl m tbl1 h hadd) heq

theorem build_user_actor_scores_keys_nodup (u : List UserMovie)
    (sc : List (String × ActorStat)) (h : build_user_actor_scores u = .ok sc) :
    (sc.map Prod.fst).Nodup :=
  buildUserActorScoresFrom_keys_nodup u [] sc (by simp) h

/-- C6: an actor with appearance count 1 in the `actor_scores` table is
never in the export of `get_top_actors_for_user` (retention threshold is
count ≥ 2); yet on a concrete input such a count-1 actor (`x`, one
appearance, while `y` has two) still matches in the raw overlap scoring
and contributes the positive amount 1/3 — the ≥ 2 filter applies only to
the exported table, not to `get_actor_overlap_score`'s table. -/
theorem c6_actor_count_threshold :
    (∀ (u : List UserMovie) (n : Nat) (sc : List (String × ActorStat))
        (tbl : List (String × ℚ)) (a : String) (st : ActorStat),
        build_user_actor_scores u = .ok sc →
        get_top_actors_for_user u n = .ok tbl →
        alookup sc a = some st → st.count = 1 →
        a ∉ tbl.map Prod.fst) ∧
    build_user_actor_scores [c6_m1, c6_m2] =
      .ok [("x", ⟨1, 5, 1⟩), ("y", ⟨2, 37 / 4, 37 / 20⟩)] ∧
    get_top_actors_for_user [c6_m1, c6_m2] 10 = .ok [("y", 2)] ∧
    get_actor_overlap_score enumId (.str "X") [c6_m1, c6_m2] [] = .ok (1 / 3) ∧
    (0 : ℚ) < 1 / 3 := by
  refine ⟨?_, by with_unfolding_all decide, by with_unfolding_all decide,
    by with_unfolding_all decide, by with_unfolding_all decide⟩
  intro u n sc tbl a st hbuild htop hlook hcount hmem
  unfold get_top_actors_for_user at htop
  rw [hbuild] at htop
  simp only [Bind.bind, Except.bind, pure, Except.pure] at htop
  cases htop
  obtain ⟨p, hp, hpa⟩ := List.mem_map.mp hmem
  have hp2 : p ∈ sortByGE (fun a b => decide (b.2 ≤ a.2))
      (sc.filterMap (fun q => if 2 ≤ q.2.count then some (q.1, actorFinalScore q.2) else none)) :=
    List.take_subset n _ hp
  have hp3 := (sortByGE_perm (fun a b : String × ℚ => decide (b.2 ≤ a.2)) _).mem_iff.mp hp2
  obtain ⟨q, hq, hqeq⟩ := List.mem_filterMap.mp hp3
  by_cases hc : 2 ≤ q.2.count
  · rw [if_pos hc] at hqeq
    cases hqeq
    simp only at hpa
    have hnd := build_user_actor_scores_keys_nodup u sc hbuild
    have hmemq : (a, q.2) ∈ sc := by
      rw [← hpa]
      simpa using hq
    have hla : alookup sc a = some q.2 := alookup_eq_of_mem_nodup hmemq hnd
    rw [hlook] at hla
    cases hla
    rw [hcount] at hc
    exact absurd hc (by decide)
  · rw [if_neg hc] at hqeq
    cases hqeq

/-- Witness for `c6_actor_count_threshold`: actor `x` (count 1) is not in
the concrete export. -/
theorem c6_actor_count_threshold_witness :
    "x" ∉ ([("y", (2 : ℚ))].map Prod.fst) :=
  c6_actor_count_threshold.1 [c6_m1, c6_m2] 10
    [("x", ⟨1, 5, 1⟩), ("y", ⟨2, 37 / 4, 37 / 20⟩)] [("y", 2)] "x" ⟨1, 5, 1⟩
    (by with_unfolding_all decide) (by with_unfolding_all decide)
    (by with_unfolding_all decide) rfl

theorem set_append_length {α : Type} (l : List α) (a b : α) :
    (l ++ [a]).set l.length b = l ++ [b] := by
  induction l with
  | nil => rfl
  | cons x xs ih =>
    simp only [List.cons_append, List.length_cons, List.set_cons_succ, ih]

theorem processCandidateStore_extends (enum : List String → List String) (w1 w2 : List String)
    (common : List (String × ℚ)) (plots1 plots2 : String) (u1 u2 : List UserMovie)
    (store : Store) (r idx : Nat) :
    ∃ ext, (processCandidateStore enum w1 w2 common plots1 plots2 u1 u2 store r idx).2 =
      store ++ ext := by
  unfold processCandidateStore
  cases store.get? r with
  | none => exact ⟨[], (List.append_nil store).symm⟩
  | some cell =>
    dsimp only
    split
    · exact ⟨[], (List.append_nil store).symm⟩
    · split
      · exact ⟨[], (List.append_nil store).symm⟩
      · split
        · exact ⟨_, set_append_length store cell _⟩
        · exact ⟨[], (List.append_nil store).symm⟩

theorem buildCandidatesStore_extends (enum : List String → List String) (w1 w2 : List String)
    (common : List (String × ℚ)) (plots1 plots2 : String) (u1 u2 : List UserMovie) :
    ∀ (refs : List Nat) (store : Store) (acc : List Nat),
      ∃ ext, (buildCandidatesStore enum w1 w2 common plots1 plots2 u1 u2 store acc refs).2 =
        store ++ ext := by
  intro refs
  induction refs with
  | nil =>
    intro store acc
    exact ⟨[], (List.append_nil store).symm⟩
  | cons r rest ih =>
    intro store acc
    unfold buildCandidatesStore
    obtain ⟨ext1, hext1⟩ :=
      processCandidateStore_extends enum w1 w2 common plots1 plots2 u1 u2 store r acc.length
    cases hp : processCandidateStore enum w1 w2 common plots1 plots2 u1 u2 store r acc.length with
    | mk res store1 =>
      rw [hp] at hext1
      simp only at hext1
      cases res with
      | error e => exact ⟨ext1, hext1⟩
      | ok o =>
        cases o with
        | none =>
          obtain ⟨ext2, hext2⟩ := ih store1 acc
          refine ⟨ext1 ++ ext2, ?_⟩
          show (buildCandidatesStore enum w1 w2 common plots1 plots2 u1 u2 store1 acc rest).2 =
            store ++ (ext1 ++ ext2)
          rw [hext2, hext1, List.append_assoc]
        | some rn =>
          obtain ⟨ext2, hext2⟩ := ih store1 (acc ++ [rn])
          refine ⟨ext1 ++ ext2, ?_⟩
          show (buildCandidatesStore enum w1 w2 common plots1 plots2 u1 u2 store1 (acc ++ [rn])
            rest).2 = store ++ (ext1 ++ ext2)
          rw [hext2, hext1, List.append_assoc]

/-- C9: `blend_movies` never mutates the movie database.  In the
store-passing rendering of the engine (`blend_movies_store`), where the
database rows are heap cells, `movie.copy()` allocates a fresh cell and
the score keys are written to the copy, every original cell is unchanged
by a full blend: the final store agrees with the initial one on every
database index. -/
theorem c9_blend_preserves_database (enum : List String → List String)
    (u1 u2 : List UserMovie) (store : Store) (i : Nat) (h : i < store.length) :
    (blend_movies_store enum u1 u2 store).2.get? i = store.get? i := by
  unfold blend_movies_store
  dsimp only
  obtain ⟨ext, hext⟩ := buildCandidatesStore_extends enum (get_watched_movies u1)
    (get_watched_movies u2)
    (get_common_genres (calculate_genre_weights u1) (calculate_genre_weights u2))
    (extract_user_plots u1) (extract_user_plots u2) u1 u2 (List.range store.length) store []
  cases hb : buildCandidatesStore enum (get_watched_movies u1) (get_watched_movies u2)
      (get_common_genres (calculate_genre_weights u1) (calculate_genre_weights u2))
      (extract_user_plots u1) (extract_user_plots u2) u1 u2 store []
      (List.range store.length) with
  | mk res store1 =>
    rw [hb] at hext
    simp only at hext
    cases res with
    | error e =>
      show store1.get? i = store.get? i
      rw [hext, List.get?_append h]
    | ok refs =>
      show store1.get? i = store.get? i
      rw [hext, List.get?_append h]

/-- Witness for `c9_blend_preserves_database`: a one-row database. -/
theorem c9_blend_preserves_database_witness :
    (blend_movies_store enumId [] [] [⟨{}, none⟩]).2.get? 0 =
      ([(⟨{}, none⟩ : MovieCell)] : Store).get? 0 :=
  c9_blend_preserves_database enumId [] [] [⟨{}, none⟩] 0 (by decide)

theorem findMainGenre_spec (ctx : DivCtx) (idx : List (String × Nat)) (last : Option String)
    (consec : Nat) (g : String) (h : findMainGenre ctx idx last consec = some g) :
    idxOf idx g < (bucketOf ctx g).length ∧ idxOf idx g < targetOf ctx g ∧
      (last ≠ some g ∨ consec < 2) := by
  have hp := List.find?_some h
  simpa [Bool.and_eq_true, Bool.or_eq_true, decide_eq_true_eq, and_assoc] using hp

theorem findRelaxGenre_spec (ctx : DivCtx) (idx : List (String × Nat)) (g : String)
    (h : findRelaxGenre ctx idx = some g) :
    idxOf idx g < (bucketOf ctx g).length := by
  have hp := List.find?_some h
  simpa using hp

theorem windows3_cons {α : Type} (p : α) (l : List α) (w : α × α × α)
    (hw : w ∈ windows3 (p :: l)) :
    w ∈ windows3 l ∨ ∃ b c rest, l = b :: c :: rest ∧ w = (p, b, c) := by
  cases l with
  | nil => simp [windows3] at hw
  | cons b t =>
    cases t with
    | nil => simp [windows3] at hw
    | cons c rest =>
      rw [show windows3 (p :: b :: c :: rest) = (p, b, c) :: windows3 (b :: c :: rest) from rfl]
        at hw
      rcases List.mem_cons.mp hw with h | h
      · exact Or.inr ⟨b, c, rest, rfl, h⟩
      · exact Or.inl h

theorem diversity_loop_no_main_triple (ctx : DivCtx) :
    ∀ (fuel : Nat) (idx : List (String × Nat)) (last : Option String) (consec count : Nat),
      (∀ g, last = some g → 1 ≤ consec) →
      (∀ w ∈ windows3 ((diversity_loop ctx fuel idx last consec count).map Prod.snd),
          w.1.genre = w.2.1.genre → w.2.1.genre = w.2.2.genre →
          w.1.relax = true ∨ w.2.1.relax = true ∨ w.2.2.relax = true) ∧
      (∀ g, last = some g →
        leadMainRun g ((diversity_loop ctx fuel idx last consec count).map Prod.snd) ≤
          2 - Nat.min consec 2) := by
  intro fuel
  induction fuel with
  | zero =>
    intro idx last consec count hc
    constructor
    · intro w hw
      simp [diversity_loop, windows3] at hw
    · intro g hg
      simp [diversity_loop, leadMainRun]
  | succ fuel ih =>
    intro idx last consec count hc
    unfold diversity_loop
    by_cases hcount : count < Config.MAX_RECOMMENDATIONS
    · rw [if_pos hcount]
      cases hfind : findMainGenre ctx idx last consec with
      | some g =>
        dsimp only
        obtain ⟨hlen, htar, hcond⟩ := findMainGenre_spec ctx idx last consec g hfind
        have hcN : ∀ g', some g = some g' → 1 ≤ (if last = some g then consec + 1 else 1) := by
          intro g' _
          by_cases hl : last = some g
          · rw [if_pos hl]
            exact Nat.le_add_left 1 consec
          · rw [if_neg hl]
        obtain ⟨ihNT, ihLead⟩ := ih (alistSet idx g (idxOf idx g + 1)) (some g)
          (if last = some g then consec + 1 else 1) (count + 1) hcN
        constructor
        · intro w hw h1 h2
          rw [List.map_cons] at hw
          rcases windows3_cons _ _ w hw with hin | ⟨b, c, rest, hl, hweq⟩
          · exact ihNT w hin h1 h2
          · subst hweq
            simp only at h1 h2
            by_cases hbrelax : b.relax = true
            · exact Or.inr (Or.inl hbrelax)
            by_cases hcrelax : c.relax = true
            · exact Or.inr (Or.inr hcrelax)
            exfalso
            have hbf : b.relax = false := by
              cases hb : b.relax
              · rfl
              · exact absurd hb hbrelax
            have hcf : c.relax = false := by
              cases hcc : c.relax
              · rfl
              · exact absurd hcc hcrelax
            have hlead := ihLead g rfl
            rw [hl, leadMainRun, if_pos ⟨hbf, h1.symm⟩, leadMainRun,
              if_pos ⟨hcf, (h1.trans h2).symm⟩] at hlead
            have h1c := hcN g rfl
            have hmin : 1 ≤ Nat.min (if last = some g then consec + 1 else 1) 2 :=
              Nat.le_min.mpr ⟨h1c, by omega⟩
            omega
        · intro g' hg'
          rw [List.map_cons, leadMainRun]
          by_cases hgg : g = g'
          · subst hgg
            rw [if_pos ⟨rfl, rfl⟩]
            have hlt : consec < 2 := by
              rcases hcond with hn | hlt
              · exact absurd hg' hn
              · exact hlt
            have h1c : 1 ≤ consec := hc g hg'
            have hc1 : consec = 1 := by omega
            subst hc1
            rw [if_pos hg']
            have hlead := ihLead g rfl
            rw [if_pos hg'] at hlead
            have hmin2 : Nat.min (1 + 1) 2 = 2 := by decide
            have hmin1 : Nat.min 1 2 = 1 := by decide
            omega
          · rw [if_neg (fun hcon => hgg hcon.2)]
            exact Nat.zero_le _
      | none =>
        cases hrelax : findRelaxGenre ctx idx with
        | some g =>
          dsimp only
          obtain ⟨ihNT, ihLead⟩ := ih (alistSet idx g (idxOf idx g + 1)) (some g) 1 (count + 1)
            (fun g' _ => le_refl 1)
          constructor
          · intro w hw h1 h2
            rw [List.map_cons] at hw
            rcases windows3_cons _ _ w hw with hin | ⟨b, c, rest, hl, hweq⟩
            · exact ihNT w hin h1 h2
            · subst hweq
              exact Or.inl rfl
          · intro g' hg'
            rw [List.map_cons, leadMainRun]
            rw [if_neg (fun hcon => Bool.noConfusion hcon.1)]
            exact Nat.zero_le _
        | none =>
          constructor
          · intro w hw
            simp [windows3] at hw
          · intro g hg
            simp [leadMainRun]
    · rw [if_neg hcount]
      constructor
      · intro w hw
        simp [windows3] at hw
      · intro g hg
        simp [leadMainRun]

set_option maxHeartbeats 2000000 in
/-- C3 amended: in the balancer's pick sequence, three consecutive picks
of the same bucket genre always include at least one relaxation-branch
pick — the quota phase alone never places a genre 3 times in a row.  (The
original claim's exception is wider than the code: relaxation also fires
on quota exhaustion with several genres remaining, and then takes the
first bucket with items, which may extend a same-genre run; see the
counterexample.) -/
theorem c3_no_triple_without_relax :
    ∀ (c : List ScoredMovie) (common : List (String × ℚ)) (w : Pick × Pick × Pick),
      w ∈ windows3 (divPicks c common) →
      w.1.genre = w.2.1.genre → w.2.1.genre = w.2.2.genre →
      w.1.relax = true ∨ w.2.1.relax = true ∨ w.2.2.relax = true := by
  intro c common w hw h1 h2
  have hdp : divPicks c common =
      (diversity_loop (diversityCtx c common) Config.MAX_RECOMMENDATIONS
        ((diversityCtx c common).groups.map (fun p => (p.1, (0 : Nat)))) none 0 0).map
        Prod.snd := rfl
  rw [hdp] at hw
  exact (diversity_loop_no_main_triple (diversityCtx c common) Config.MAX_RECOMMENDATIONS
    ((diversityCtx c common).groups.map (fun p => (p.1, (0 : Nat)))) none 0 0
    (fun g hg => by cases hg)).1 w hw h1 h2

/-- Witness for `c3_no_triple_without_relax`: the same-genre window at
picks 13–15 of the 51-candidate run contains its relaxation pick. -/
theorem c3_no_triple_without_relax_witness :
    (⟨"A", false, 2⟩ : Pick).relax = true ∨ (⟨"A", false, 2⟩ : Pick).relax = true ∨
      (⟨"A", true, 2⟩ : Pick).relax = true :=
  c3_no_triple_without_relax c51 g2 (⟨"A", false, 2⟩, ⟨"A", false, 2⟩, ⟨"A", true, 2⟩)
    (by with_unfolding_all decide) rfl rfl

/-- C3 counterexample: on 51 candidates (45 of genre `A` weight 9, 6 of
genre `B` weight 1) the balancer emits `A` three times in a row at picks
13–15 via a relaxation pick forced by quota exhaustion while bucket `B`
still has remaining items (two buckets remain), so the claimed exception
("all remaining items share one genre") does not apply. -/
theorem c3_counterexample_relaxation_not_forced : ¬ claimC3Prop c51 g2 := by
  with_unfolding_all decide

theorem alookup_cons {α : Type} (p : String × α) (l : List (String × α)) (h : String) :
    alookup (p :: l) h = if p.1 = h then some p.2 else alookup l h := rfl

theorem alookup_alistSet {α : Type} (l : List (String × α)) (k : String) (v : α) (h : String) :
    alookup (alistSet l k v) h = if k = h then some v else alookup l h := by
  induction l with
  | nil =>
    show alookup [(k, v)] h = if k = h then some v else none
    rw [alookup_cons]
    by_cases hk : k = h
    · rw [if_pos hk, if_pos hk]
    · rw [if_neg hk, if_neg hk]
      rfl
  | cons p rest ih =>
    by_cases hp : p.1 = k
    · rw [show alistSet (p :: rest) k v = (k, v) :: rest from by simp [alistSet, hp],
        alookup_cons, alookup_cons]
      by_cases hk : k = h
      · rw [if_pos hk, if_pos hk]
      · rw [if_neg hk, if_neg hk, if_neg (fun hc : p.1 = h => hk (hp.symm.trans hc))]
    · rw [show alistSet (p :: rest) k v = p :: alistSet rest k v from by simp [alistSet, hp],
        alookup_cons, alookup_cons, ih]
      by_cases hph : p.1 = h
      · have hkh : ¬k = h := fun hc => hp (hph.trans hc.symm)
        rw [if_pos hph, if_neg hkh, if_pos hph]
      · rw [if_neg hph, if_neg hph]

theorem idxOf_alistSet (idx : List (String × Nat)) (g : String) (v : Nat) (h : String) :
    idxOf (alistSet idx g v) h = if h = g then v else idxOf idx h := by
  unfold idxOf
  rw [alookup_alistSet]
  by_cases hg : g = h
  · rw [if_pos hg, if_pos hg.symm]
    rfl
  · rw [if_neg hg, if_neg (fun hc : h = g => hg hc.symm)]

theorem drop_ms_le_of_le {α : Type} (l : List α) {m n : Nat} (h : m ≤ n) :
    ((l.drop n : List α) : Multiset α) ≤ ((l.drop m : List α) : Multiset α) := by
  rw [Multiset.coe_le]
  have : l.drop n = (l.drop m).drop (n - m) := by
    rw [List.drop_drop]
    congr 1
    omega
  rw [this]
  exact (List.drop_sublist _ _).subperm

theorem remainingMS_mono_set (groups : List (String × List ScoredMovie))
    (idx : List (String × Nat)) (g : String) (v : Nat) (hv : idxOf idx g ≤ v) :
    remainingMS groups (alistSet idx g v) ≤ remainingMS groups idx := by
  unfold remainingMS
  induction groups with
  | nil => simp
  | cons p rest ih =>
    rw [List.map_cons, List.map_cons, List.sum_cons, List.sum_cons]
    refine add_le_add ?_ ih
    rw [idxOf_alistSet]
    by_cases hp : p.1 = g
    · rw [if_pos hp]
      exact drop_ms_le_of_le p.2 (hp ▸ hv)
    · rw [if_neg hp]

theorem remainingMS_pick_le (groups : List (String × List ScoredMovie))
    (idx : List (String × Nat)) (g : String)
    (h : idxOf idx g < ((alookup groups g).getD []).length) :
    remainingMS groups (alistSet idx g (idxOf idx g + 1)) +
      {((alookup groups g).getD []).getD (idxOf idx g) default} ≤
    remainingMS groups idx := by
  induction groups with
  | nil =>
    simp [alookup] at h
  | cons p rest ih =>
    unfold remainingMS
    rw [List.map_cons, List.map_cons, List.sum_cons, List.sum_cons]
    by_cases hp : p.1 = g
    · rw [show alookup (p :: rest) g = some p.2 from by rw [alookup_cons, if_pos hp]] at h ⊢
      simp only [Option.getD_some] at h ⊢
      have hdecomp : p.2.drop (idxOf idx p.1) =
          p.2.getD (idxOf idx g) default :: p.2.drop (idxOf idx g + 1) := by
        rw [hp, List.getD_eq_getElem _ _ h]
        exact List.drop_eq_getElem_cons h
      rw [hdecomp]
      rw [idxOf_alistSet, if_pos hp]
      have htail : (List.map (fun q => ((q.2.drop (idxOf (alistSet idx g (idxOf idx g + 1)) q.1) :
            List ScoredMovie) : Multiset ScoredMovie)) rest).sum ≤
          (List.map (fun q => ((q.2.drop (idxOf idx q.1) : List ScoredMovie) :
            Multiset ScoredMovie)) rest).sum := by
        have := remainingMS_mono_set rest idx g (idxOf idx g + 1) (Nat.le_succ _)
        simpa [remainingMS] using this
      calc (p.2.drop (idxOf idx g + 1) : Multiset ScoredMovie) +
            (List.map (fun q => ((q.2.drop (idxOf (alistSet idx g (idxOf idx g + 1)) q.1) :
              List ScoredMovie) : Multiset ScoredMovie)) rest).sum +
            {p.2.getD (idxOf idx g) default}
          = ({p.2.getD (idxOf idx g) default} + (p.2.drop (idxOf idx g + 1) : Multiset ScoredMovie)) +
            (List.map (fun q => ((q.2.drop (idxOf (alistSet idx g (idxOf idx g + 1)) q.1) :
              List ScoredMovie) : Multiset ScoredMovie)) rest).sum := by
            abel
        _ ≤ ({p.2.getD (idxOf idx g) default} + (p.2.drop (idxOf idx g + 1) : Multiset ScoredMovie)) +
            (List.map (fun q => ((q.2.drop (idxOf idx q.1) : List ScoredMovie) :
              Multiset ScoredMovie)) rest).sum := add_le_add_left htail _
        _ = ((p.2.getD (idxOf idx g) default :: p.2.drop (idxOf idx g + 1) : List ScoredMovie) :
              Multiset ScoredMovie) +
            (List.map (fun q => ((q.2.drop (idxOf idx q.1) : List ScoredMovie) :
              Multiset ScoredMovie)) rest).sum := by
            rw [← Multiset.cons_coe, ← Multiset.singleton_add]
    · rw [show alookup (p :: rest) g = alookup rest g from by
        rw [alookup_cons, if_neg hp]] at h ⊢
      have hih := ih h
      rw [idxOf_alistSet, if_neg hp]
      unfold remainingMS at hih
      calc (p.2.drop (idxOf idx p.1) : Multiset ScoredMovie) +
            (List.map (fun q => ((q.2.drop (idxOf (alistSet idx g (idxOf idx g + 1)) q.1) :
              List ScoredMovie) : Multiset ScoredMovie)) rest).sum +
            {((alookup rest g).getD []).getD (idxOf idx g) default}
          = (p.2.drop (idxOf idx p.1) : Multiset ScoredMovie) +
            ((List.map (fun q => ((q.2.drop (idxOf (alistSet idx g (idxOf idx g + 1)) q.1) :
              List ScoredMovie) : Multiset ScoredMovie)) rest).sum +
            {((alookup rest g).getD []).getD (idxOf idx g) default}) := by
            rw [add_assoc]
        _ ≤ (p.2.drop (idxOf idx p.1) : Multiset ScoredMovie) +
            (List.map (fun q => ((q.2.drop (idxOf idx q.1) : List ScoredMovie) :
              Multiset ScoredMovie)) rest).sum := add_le_add_left hih _

theorem diversity_loop_ms_le (ctx : DivCtx) :
    ∀ (fuel : Nat) (idx : List (String × Nat)) (last : Option String) (consec count : Nat),
      (((diversity_loop ctx fuel idx last consec count).map Prod.fst : List ScoredMovie) :
        Multiset ScoredMovie) ≤ remainingMS ctx.groups idx := by
  intro fuel
  induction fuel with
  | zero =>
    intro idx last consec count
    simp [diversity_loop]
  | succ fuel ih =>
    intro idx last consec count
    unfold diversity_loop
    by_cases hcount : count < Config.MAX_RECOMMENDATIONS
    · rw [if_pos hcount]
      cases hfind : findMainGenre ctx idx last consec with
      | some g =>
        dsimp only
        have hlen := (findMainGenre_spec ctx idx last consec g hfind).1
        rw [List.map_cons]
        have hb : bucketOf ctx g = (alookup ctx.groups g).getD [] := rfl
        rw [hb] at hlen
        have hstep := remainingMS_pick_le ctx.groups idx g hlen
        calc (((((alookup ctx.groups g).getD []).getD (idxOf idx g) default ::
              (diversity_loop ctx fuel (alistSet idx g (idxOf idx g + 1)) (some g)
                (if last = some g then consec + 1 else 1) (count + 1)).map Prod.fst :
              List ScoredMovie)) : Multiset ScoredMovie)
            = {((alookup ctx.groups g).getD []).getD (idxOf idx g) default} +
              ↑((diversity_loop ctx fuel (alistSet idx g (idxOf idx g + 1)) (some g)
                (if last = some g then consec + 1 else 1) (count + 1)).map Prod.fst) := by
              rw [← Multiset.cons_coe, ← Multiset.singleton_add]
          _ ≤ {((alookup ctx.groups g).getD []).getD (idxOf idx g) default} +
              remainingMS ctx.groups (alistSet idx g (idxOf idx g + 1)) :=
              add_le_add_left (ih _ _ _ _) _
          _ = remainingMS ctx.groups (alistSet idx g (idxOf idx g + 1)) +
              {((alookup ctx.groups g).getD []).getD (idxOf idx g) default} := add_comm _ _
          _ ≤ remainingMS ctx.groups idx := hstep
      | none =>
        cases hrelax : findRelaxGenre ctx idx with
        | some g =>
          dsimp only
          have hlen := findRelaxGenre_spec ctx idx g hrelax
          rw [List.map_cons]
          have hb : bucketOf ctx g = (alookup ctx.groups g).getD [] := rfl
          rw [hb] at hlen
          have hstep := remainingMS_pick_le ctx.groups idx g hlen
          calc (((((alookup ctx.groups g).getD []).getD (idxOf idx g) default ::
                (diversity_loop ctx fuel (alistSet idx g (idxOf idx g + 1)) (some g) 1
                  (count + 1)).map Prod.fst : List ScoredMovie)) : Multiset ScoredMovie)
              = {((alookup ctx.groups g).getD []).getD (idxOf idx g) default} +
                ↑((diversity_loop ctx fuel (alistSet idx g (idxOf idx g + 1)) (some g) 1
                  (count + 1)).map Prod.fst) := by
                rw [← Multiset.cons_coe, ← Multiset.singleton_add]
            _ ≤ {((alookup ctx.groups g).getD []).getD (idxOf idx g) default} +
                remainingMS ctx.groups (alistSet idx g (idxOf idx g + 1)) :=
                add_le_add_left (ih _ _ _ _) _
            _ = remainingMS ctx.groups (alistSet idx g (idxOf idx g + 1)) +
                {((alookup ctx.groups g).getD []).getD (idxOf idx g) default} := add_comm _ _
            _ ≤ remainingMS ctx.groups idx := hstep
        | none => simp
    · rw [if_neg hcount]
      simp

theorem idxOf_init_zero (groups : List (String × List ScoredMovie)) (k : String) :
    idxOf (groups.map (fun p => (p.1, (0 : Nat)))) k = 0 := by
  unfold idxOf
  induction groups with
  | nil => rfl
  | cons p rest ih =>
    rw [List.map_cons, alookup_cons]
    by_cases h : p.1 = k
    · rw [if_pos h]
      rfl
    · rw [if_neg h]
      exact ih

theorem remainingMS_zero (groups : List (String × List ScoredMovie)) :
    remainingMS groups (groups.map (fun p => (p.1, (0 : Nat)))) = bucketsMS groups := by
  unfold remainingMS bucketsMS
  refine congrArg List.sum ?_
  refine List.map_congr_left ?_
  intro p _
  rw [idxOf_init_zero, List.drop_zero]

theorem bucketsMS_sort (grouped : List (String × List ScoredMovie)) :
    bucketsMS (grouped.map (fun p =>
      (p.1, sortByGE (fun a b => decide (b.combined_score ≤ a.combined_score)) p.2))) =
    bucketsMS grouped := by
  unfold bucketsMS
  rw [List.map_map]
  refine congrArg List.sum ?_
  refine List.map_congr_left ?_
  intro p _
  exact Multiset.coe_eq_coe.mpr (sortByGE_perm _ _)

theorem bucketsMS_modify_append (groups : List (String × List ScoredMovie)) (g : String)
    (sm : ScoredMovie) :
    bucketsMS (alistModify groups g (fun l => l ++ [sm])) ≤ bucketsMS groups + {sm} := by
  unfold bucketsMS
  induction groups with
  | nil =>
    simp [alistModify]
  | cons p rest ih =>
    by_cases hp : p.1 = g
    · rw [show alistModify (p :: rest) g (fun l => l ++ [sm]) = (p.1, p.2 ++ [sm]) :: rest from by
        simp [alistModify, hp]]
      rw [List.map_cons, List.map_cons, List.sum_cons, List.sum_cons]
      have hco : ((p.2 ++ [sm] : List ScoredMovie) : Multiset ScoredMovie) = ↑p.2 + {sm} := rfl
      rw [hco]
      exact le_of_eq (by abel)
    · rw [show alistModify (p :: rest) g (fun l => l ++ [sm]) =
          p :: alistModify rest g (fun l => l ++ [sm]) from by simp [alistModify, hp]]
      rw [List.map_cons, List.map_cons, List.sum_cons, List.sum_cons]
      calc (↑p.2 : Multiset ScoredMovie) +
            (List.map (fun q => (↑q.2 : Multiset ScoredMovie))
              (alistModify rest g (fun l => l ++ [sm]))).sum
          ≤ ↑p.2 + ((List.map (fun q => (↑q.2 : Multiset ScoredMovie)) rest).sum + {sm}) :=
            add_le_add_left ih _
        _ = ↑p.2 + (List.map (fun q => (↑q.2 : Multiset ScoredMovie)) rest).sum + {sm} := by
            rw [add_assoc]

theorem bucketsMS_partition_aux (common : List (String × ℚ)) (rest : List ScoredMovie)
    (ih : ∀ groups0, bucketsMS (partitionByGenre common groups0 rest) ≤
      bucketsMS groups0 + (rest : Multiset ScoredMovie))
    (groups0 : List (String × List ScoredMovie)) (key : String) (sm : ScoredMovie) :
    bucketsMS (partitionByGenre common (alistModify groups0 key (fun l => l ++ [sm])) rest) ≤
      bucketsMS groups0 + ((sm :: rest : List ScoredMovie) : Multiset ScoredMovie) := by
  calc bucketsMS (partitionByGenre common (alistModify groups0 key (fun l => l ++ [sm])) rest)
      ≤ bucketsMS (alistModify groups0 key (fun l => l ++ [sm])) + ↑rest := ih _
    _ ≤ (bucketsMS groups0 + {sm}) + ↑rest :=
        add_le_add_right (bucketsMS_modify_append groups0 key sm) _
    _ = bucketsMS groups0 + ((sm :: rest : List ScoredMovie) : Multiset ScoredMovie) := by
        rw [add_assoc, Multiset.singleton_add, Multiset.cons_coe]

theorem bucketsMS_partition (common : List (String × ℚ)) :
    ∀ (movies : List ScoredMovie) (groups0 : List (String × List ScoredMovie)),
      bucketsMS (partitionByGenre common groups0 movies) ≤
        bucketsMS groups0 + (movies : Multiset ScoredMovie) := by
  intro movies
  induction movies with
  | nil =>
    intro groups0
    simp [partitionByGenre]
  | cons sm rest ih =>
    intro groups0
    by_cases hmg : movieGenresOf sm = []
    · rw [show partitionByGenre common groups0 (sm :: rest) =
          partitionByGenre common (alistModify groups0 "other" (fun l => l ++ [sm])) rest from by
        unfold partitionByGenre
        rw [List.foldl_cons]
        dsimp only
        rw [if_pos hmg]]
      exact bucketsMS_partition_aux common rest ih groups0 "other" sm
    · cases hpg : primary_genre common (movieGenresOf sm) with
      | some pg =>
        rw [show partitionByGenre common groups0 (sm :: rest) =
            partitionByGenre common (alistModify groups0 pg (fun l => l ++ [sm])) rest from by
          unfold partitionByGenre
          rw [List.foldl_cons]
          dsimp only
          rw [if_neg hmg, hpg]]
        exact bucketsMS_partition_aux common rest ih groups0 pg sm
      | none =>
        rw [show partitionByGenre common groups0 (sm :: rest) =
            partitionByGenre common (alistModify groups0 "other" (fun l => l ++ [sm])) rest from by
          unfold partitionByGenre
          rw [List.foldl_cons]
          dsimp only
          rw [if_neg hmg, hpg]]
        exact bucketsMS_partition_aux common rest ih groups0 "other" sm

theorem mem_alistSet {α : Type} (l : List (String × α)) (k : String) (v : α) (q : String × α)
    (h : q ∈ alistSet l k v) : q ∈ l ∨ q = (k, v) := by
  induction l with
  | nil =>
    rw [show alistSet ([] : List (String × α)) k v = [(k, v)] from rfl] at h
    exact Or.inr (List.mem_singleton.mp h)
  | cons p rest ih =>
    by_cases hp : p.1 = k
    · rw [show alistSet (p :: rest) k v = (k, v) :: rest from by simp [alistSet, hp]] at h
      rcases List.mem_cons.mp h with h1 | h1
      · exact Or.inr h1
      · exact Or.inl (List.mem_cons_of_mem _ h1)
    · rw [show alistSet (p :: rest) k v = p :: alistSet rest k v from by simp [alistSet, hp]] at h
      rcases List.mem_cons.mp h with h1 | h1
      · exact Or.inl (h1 ▸ List.mem_cons_self _ _)
      · rcases ih h1 with h2 | h2
        · exact Or.inl (List.mem_cons_of_mem _ h2)
        · exact Or.inr h2

theorem bucketsMS_eq_zero :
    ∀ (l : List (String × List ScoredMovie)), (∀ p ∈ l, p.2 = []) → bucketsMS l = 0 := by
  intro l
  induction l with
  | nil =>
    intro _
    rfl
  | cons p rest ih =>
    intro h
    unfold bucketsMS
    rw [List.map_cons, List.sum_cons, h p (List.mem_cons_self _ _)]
    have := ih (fun q hq => h q (List.mem_cons_of_mem _ hq))
    unfold bucketsMS at this
    rw [this]
    rfl

theorem bucketsMS_groups0 (names : List String) :
    bucketsMS (alistSet (names.map (fun g => (g, ([] : List ScoredMovie)))) "other" []) = 0 := by
  apply bucketsMS_eq_zero
  intro p hp
  rcases mem_alistSet _ _ _ _ hp with h | h
  · obtain ⟨g, _, hpe⟩ := List.mem_map.mp h
    rw [← hpe]
  · rw [h]

/-- C10: the genre diversity balancer emits only input movies — no
element occurs more often in the output than in the input — and the
output length never exceeds `Config.MAX_RECOMMENDATIONS` (50).  (For
engine-produced common-genre maps all weights are positive, so the
balancer's quota division is well-defined; Lean's total division gives
the quota junk values otherwise, which these bounds do not depend on.) -/
theorem c10_balancer_output_from_input :
    ∀ (c : List ScoredMovie) (common : List (String × ℚ)),
      (∀ sm : ScoredMovie, (apply_genre_diversity c common).count sm ≤ c.count sm) ∧
      (apply_genre_diversity c common).length ≤ Config.MAX_RECOMMENDATIONS := by
  intro c common
  unfold apply_genre_diversity
  by_cases hlen : c.length ≤ 50
  · rw [if_pos hlen]
    exact ⟨fun sm => le_refl _, hlen⟩
  · rw [if_neg hlen]
    constructor
    · intro sm
      have hms : ((((apply_genre_diversity_aux c common).map Prod.fst).take
          Config.MAX_RECOMMENDATIONS : List ScoredMovie) : Multiset ScoredMovie) ≤
          (c : Multiset ScoredMovie) := by
        have htake : ((((apply_genre_diversity_aux c common).map Prod.fst).take
            Config.MAX_RECOMMENDATIONS : List ScoredMovie) : Multiset ScoredMovie) ≤
            (((apply_genre_diversity_aux c common).map Prod.fst : List ScoredMovie) :
              Multiset ScoredMovie) := by
          rw [Multiset.coe_le]
          exact (List.take_sublist _ _).subperm
        have haux : apply_genre_diversity_aux c common =
            diversity_loop (diversityCtx c common) Config.MAX_RECOMMENDATIONS
              ((diversityCtx c common).groups.map (fun p => (p.1, (0 : Nat)))) none 0 0 := rfl
        have hloop := diversity_loop_ms_le (diversityCtx c common) Config.MAX_RECOMMENDATIONS
          ((diversityCtx c common).groups.map (fun p => (p.1, (0 : Nat)))) none 0 0
        have hzero := remainingMS_zero (diversityCtx c common).groups
        have hgroups : (diversityCtx c common).groups =
            (partitionByGenre common
              (alistSet (((sortByGE (fun a b => decide (b.2 ≤ a.2)) common).map Prod.fst).map
                (fun g => (g, ([] : List ScoredMovie)))) "other" []) c).map
              (fun p => (p.1, sortByGE (fun a b => decide (b.combined_score ≤ a.combined_score))
                p.2)) := rfl
        have hsort := bucketsMS_sort (partitionByGenre common
          (alistSet (((sortByGE (fun a b => decide (b.2 ≤ a.2)) common).map Prod.fst).map
            (fun g => (g, ([] : List ScoredMovie)))) "other" []) c)
        have hpart := bucketsMS_partition common c
          (alistSet (((sortByGE (fun a b => decide (b.2 ≤ a.2)) common).map Prod.fst).map
            (fun g => (g, ([] : List ScoredMovie)))) "other" [])
        have hzero0 := bucketsMS_groups0
          ((sortByGE (fun a b => decide (b.2 ≤ a.2)) common).map Prod.fst)
        calc ((((apply_genre_diversity_aux c common).map Prod.fst).take
              Config.MAX_RECOMMENDATIONS : List ScoredMovie) : Multiset ScoredMovie)
            ≤ (((apply_genre_diversity_aux c common).map Prod.fst : List ScoredMovie) :
                Multiset ScoredMovie) := htake
          _ ≤ remainingMS (diversityCtx c common).groups
              ((diversityCtx c common).groups.map (fun p => (p.1, (0 : Nat)))) := by
              rw [haux]
              exact hloop
          _ = bucketsMS (diversityCtx c common).groups := hzero
          _ = bucketsMS (partitionByGenre common
              (alistSet (((sortByGE (fun a b => decide (b.2 ≤ a.2)) common).map Prod.fst).map
                (fun g => (g, ([] : List ScoredMovie)))) "other" []) c) := by
              rw [hgroups, hsort]
          _ ≤ bucketsMS (alistSet (((sortByGE (fun a b => decide (b.2 ≤ a.2)) common).map
              Prod.fst).map (fun g => (g, ([] : List ScoredMovie)))) "other" []) +
              (c : Multiset ScoredMovie) := hpart
          _ = (c : Multiset ScoredMovie) := by rw [hzero0, zero_add]
      have hcnt := Multiset.le_iff_count.mp hms sm
      simpa using hcnt
    · exact List.length_take_le _ _
